import Mathlib

/-!
Verification of the workflow execution engine of the batata-rpa repository
(src/src-tauri/src/engine/{variable,runtime,executor}.rs).

The Rust sources are shallowly embedded as executable Lean definitions:

* `VariableValue`, `Variable`, `VariableScope`, `VariableStore` embed
  `engine/variable.rs`.  The Rust store is a `HashMap<String, Variable>` with
  unspecified iteration order; it is modelled as an association list whose
  order stands for one admissible iteration order (insertion order is realised
  by `VariableStore.set`); theorems quantify over the list, hence over orders.
  `f64` numbers are modelled by `Int`: no verified claim performs float
  arithmetic, and for the integral values exercised here Rust's `f64` display
  agrees with `Int` display.
* `RuntimeState` and the `Runtime.*` operations embed `engine/runtime.rs`.
  `ExecutionLog`'s uuid and rfc3339 timestamp fields carry no information used
  by any claim and are omitted from `LogEntry`; `start_time`/`end_time` are
  modelled by the booleans `startTimeSet`/`endTimeSet` (whether the
  `Option<String>` is `Some`).
* String helpers (`replaceAllChars`, `trimChars`, `toLowerChars`) embed the
  Rust `str::replace`, `str::trim` and `str::to_lowercase` primitives on
  `List Char` (ASCII lowercasing suffices for every string the engine
  compares; `str::replace` substitutes all non-overlapping occurrences left to
  right without rescanning the replacement text).
-/

/-- Character-level embedding of Rust `str::replace`, with an explicit fuel
argument (fuel ≥ length of the subject string makes it total; the wrapper
`replaceAllChars` supplies it).  All non-overlapping occurrences of `pat` are
replaced left to right; replacement text is never rescanned.  The engine only
calls it with the nonempty pattern `"${name}"`. -/
def replaceAllFuel : Nat → List Char → List Char → List Char → List Char
  | 0, s, _, _ => s
  | _ + 1, [], _, _ => []
  | fuel + 1, c :: rest, pat, rep =>
    if !pat.isEmpty && pat.isPrefixOf (c :: rest) then
      rep ++ replaceAllFuel fuel ((c :: rest).drop pat.length) pat rep
    else
      c :: replaceAllFuel fuel rest pat rep

/-- Rust `str::replace` on character lists. -/
def replaceAllChars (s pat rep : List Char) : List Char :=
  replaceAllFuel s.length s pat rep

/-- Rust `str::trim` on character lists: strip whitespace from both ends. -/
def trimChars (s : List Char) : List Char :=
  ((s.dropWhile Char.isWhitespace).reverse.dropWhile Char.isWhitespace).reverse

/-- Rust `str::to_lowercase` on character lists (ASCII case mapping; the
engine only lowercases ASCII condition keywords such as `"TRUE"`). -/
def toLowerChars (s : List Char) : List Char :=
  s.map Char.toLower

/-- JSON values (`serde_json::Value`).  Objects keep their fields as an
ordered association list, matching the field order `serde` emits; numbers are
modelled by `Int` (see the module comment). -/
inductive Json where
  | null : Json
  | bool (b : Bool) : Json
  | num (n : Int) : Json
  | str (s : String) : Json
  | arr (items : List Json) : Json
  | obj (fields : List (String × Json)) : Json

/-- Field lookup in a JSON object field list (first occurrence, as the data
maps the engine reads never carry duplicate keys). -/
def jsonLookup : List (String × Json) → String → Option Json
  | [], _ => none
  | (k, v) :: rest, key => if k == key then some v else jsonLookup rest key

/-- Embeds `serde_json::Value::as_str`. -/
def Json.asStr : Json → Option String
  | .str s => some s
  | _ => none

/-- Embeds `serde_json::Value::as_u64`: defined exactly on non-negative
integral numbers. -/
def Json.asU64 : Json → Option Nat
  | .num n => if 0 ≤ n then some n.toNat else none
  | _ => none

/-- Embeds `VariableValue` of `engine/variable.rs` (serde-untagged union). -/
inductive VariableValue where
  | null : VariableValue
  | bool (b : Bool) : VariableValue
  | num (n : Int) : VariableValue
  | str (s : String) : VariableValue
  | list (items : List VariableValue) : VariableValue
  | dict (entries : List (String × VariableValue)) : VariableValue

/-- JSON string escaping as performed by `serde_json::to_string`. -/
def escapeJsonChar (c : Char) : List Char :=
  if c = '"' then ['\\', '"']
  else if c = '\\' then ['\\', '\\']
  else if c = '\n' then ['\\', 'n']
  else if c = '\r' then ['\\', 'r']
  else if c = '\t' then ['\\', 't']
  else if c.toNat < 32 then
    let hex := Nat.toDigits 16 c.toNat
    ['\\', 'u', '0', '0'] ++ (if c.toNat < 16 then '0' :: hex else hex)
  else [c]

/-- Render a JSON string literal (quotes plus escaping). -/
def renderJsonString (s : String) : List Char :=
  '"' :: (s.data.flatMap escapeJsonChar) ++ ['"']

mutual

/-- Compact rendering of `serde_json::to_string`, used by
`VariableValue.toStringValue` for lists and dicts. -/
def renderJson : Json → List Char
  | .null => "null".data
  | .bool b => if b then "true".data else "false".data
  | .num n => (toString n).data
  | .str s => renderJsonString s
  | .arr items => '[' :: renderJsonArr items ++ [']']
  | .obj fields => '{' :: renderJsonObj fields ++ ['}']

def renderJsonArr : List Json → List Char
  | [] => []
  | [x] => renderJson x
  | x :: y :: rest => renderJson x ++ ',' :: renderJsonArr (y :: rest)

def renderJsonObj : List (String × Json) → List Char
  | [] => []
  | [(k, v)] => renderJsonString k ++ ':' :: renderJson v
  | (k, v) :: p :: rest =>
    renderJsonString k ++ ':' :: renderJson v ++ ',' :: renderJsonObj (p :: rest)

end

mutual

/-- The untagged serde serialization of a `VariableValue` (used by
`to_string_value` for `List`/`Dict`). -/
def VariableValue.toJson : VariableValue → Json
  | .null => .null
  | .bool b => .bool b
  | .num n => .num n
  | .str s => .str s
  | .list items => .arr (VariableValue.toJsonList items)
  | .dict entries => .obj (VariableValue.toJsonDict entries)

def VariableValue.toJsonList : List VariableValue → List Json
  | [] => []
  | v :: vs => v.toJson :: VariableValue.toJsonList vs

def VariableValue.toJsonDict : List (String × VariableValue) → List (String × Json)
  | [] => []
  | (k, v) :: rest => (k, v.toJson) :: VariableValue.toJsonDict rest

end

/-- Embeds `VariableValue::to_string_value`: primitives display directly,
lists and dicts display as compact JSON. -/
def VariableValue.toStringValue : VariableValue → String
  | .null => "null"
  | .bool b => if b then "true" else "false"
  | .num n => toString n
  | .str s => s
  | .list items => String.mk (renderJson (Json.arr (VariableValue.toJsonList items)))
  | .dict entries => String.mk (renderJson (Json.obj (VariableValue.toJsonDict entries)))

/-- Embeds `VariableScope` of `engine/variable.rs`. -/
inductive VariableScope where
  | Global : VariableScope
  | Local : VariableScope
deriving Repr, DecidableEq

/-- Embeds `Variable` of `engine/variable.rs`. -/
structure Variable where
  name : String
  value : VariableValue
  scope : VariableScope

/-- Embeds `VariableStore`: the Rust `HashMap<String, Variable>` modelled as
an association list standing for one iteration order (see module comment). -/
structure VariableStore where
  entries : List (String × Variable)

/-- The empty store (`VariableStore::new`). -/
def VariableStore.new : VariableStore := ⟨[]⟩

/-- Embeds `VariableStore::set`: `HashMap::insert` replaces the entry in
place when the key is present and otherwise adds a fresh entry (realised here
at the end of the list). -/
def VariableStore.set (store : VariableStore) (name : String) (value : VariableValue)
    (scope : VariableScope) : VariableStore :=
  if store.entries.any (fun p => p.1 == name) then
    ⟨store.entries.map (fun p =>
      if p.1 == name then (name, ⟨name, value, scope⟩) else p)⟩
  else
    ⟨store.entries ++ [(name, ⟨name, value, scope⟩)]⟩

/-- Embeds `VariableStore::get`. -/
def VariableStore.get (store : VariableStore) (name : String) : Option VariableValue :=
  match store.entries.find? (fun p => p.1 == name) with
  | some p => some p.2.value
  | none => none

/-- Embeds `VariableStore::clear_local`: retain only `Global` entries. -/
def VariableStore.clearLocal (store : VariableStore) : VariableStore :=
  ⟨store.entries.filter (fun p => p.2.scope == VariableScope.Global)⟩

/-- The placeholder token built by `VariableStore::interpolate`, as
characters: a dollar sign, an opening brace, the name, a closing brace. -/
def placeholderChars (name : String) : List Char :=
  ("$\x7b" ++ name ++ "\x7d").data

/-- Interpolation pass on characters: fold over the variable entries in
iteration order, replacing every occurrence of the literal token
`"${name}"` by the display string of the variable (embeds the loop body of
`VariableStore::interpolate`). -/
def interpolateChars (entries : List (String × Variable)) (text : List Char) : List Char :=
  entries.foldl (fun result p =>
    replaceAllChars result (placeholderChars p.1) p.2.value.toStringValue.data)
    text

/-- Embeds `VariableStore::interpolate`. -/
def VariableStore.interpolate (store : VariableStore) (text : String) : String :=
  String.mk (interpolateChars store.entries text.data)

/-- Embeds `ExecutionStatus` of `engine/mod.rs`. -/
inductive ExecutionStatus where
  | Idle : ExecutionStatus
  | Running : ExecutionStatus
  | Paused : ExecutionStatus
  | Completed : ExecutionStatus
  | Failed : ExecutionStatus
deriving Repr, DecidableEq

/-- Embeds `LogLevel` of `engine/mod.rs`. -/
inductive LogLevel where
  | Debug : LogLevel
  | Info : LogLevel
  | Warn : LogLevel
  | Error : LogLevel
deriving Repr, DecidableEq

/-- Embeds `ExecutionLog` of `engine/mod.rs` without the uuid and timestamp
fields (see module comment). -/
structure LogEntry where
  level : LogLevel
  nodeId : Option String
  message : String
deriving Repr, DecidableEq

/-- Embeds `ExecutionLog::info`. -/
def LogEntry.info (message : String) : LogEntry := ⟨LogLevel.Info, none, message⟩

/-- Embeds `ExecutionLog::warn`. -/
def LogEntry.warn (message : String) : LogEntry := ⟨LogLevel.Warn, none, message⟩

/-- Embeds `ExecutionLog::error`. -/
def LogEntry.error (message : String) : LogEntry := ⟨LogLevel.Error, none, message⟩

/-- Embeds `ExecutionLog::with_node`. -/
def LogEntry.withNode (log : LogEntry) (nodeId : String) : LogEntry :=
  { log with nodeId := some nodeId }

/-- Embeds `DebugMode` of `engine/runtime.rs`. -/
inductive DebugMode where
  | None : DebugMode
  | StepByStep : DebugMode
  | Breakpoint : DebugMode
deriving Repr, DecidableEq

/-- Rust `{:?}` rendering of `DebugMode` (used in the debug-start log). -/
def DebugMode.debugFmt : DebugMode → String
  | .None => "None"
  | .StepByStep => "StepByStep"
  | .Breakpoint => "Breakpoint"

/-- Embeds `DebugState` of `engine/runtime.rs` (the breakpoint `HashSet` is
modelled as a list of node ids). -/
structure DebugState where
  mode : DebugMode
  breakpoints : List String
  stepPending : Bool
  pausedAtNode : Option String
deriving Repr, DecidableEq

/-- Embeds `DebugState::default`. -/
def DebugState.default : DebugState := ⟨DebugMode.None, [], false, none⟩

/-- Embeds `RuntimeState` of `engine/runtime.rs` (timestamps modelled as
set-flags, see module comment). -/
structure RuntimeState where
  workflowId : String
  status : ExecutionStatus
  currentNodeId : Option String
  startTimeSet : Bool
  endTimeSet : Bool
  logs : List LogEntry
  error : Option String
  debug : DebugState
deriving Repr, DecidableEq

/-- Embeds `RuntimeState::new`. -/
def RuntimeState.new (workflowId : String) : RuntimeState :=
  ⟨workflowId, ExecutionStatus.Idle, none, false, false, [], none, DebugState.default⟩

namespace Runtime

/-- Embeds `Runtime::start`. -/
def start (s : RuntimeState) : RuntimeState :=
  { s with
    status := ExecutionStatus.Running
    startTimeSet := true
    logs := s.logs ++ [LogEntry.info "Workflow execution started"] }

/-- Embeds `Runtime::start_debug`. -/
def startDebug (mode : DebugMode) (s : RuntimeState) : RuntimeState :=
  { s with
    status := ExecutionStatus.Running
    startTimeSet := true
    debug := { s.debug with
      mode := mode
      stepPending := mode == DebugMode.StepByStep }
    logs := s.logs ++
      [LogEntry.info ("Debug execution started (mode: " ++ mode.debugFmt ++ ")")] }

/-- Embeds `Runtime::pause`: sets `Paused` unconditionally. -/
def pause (s : RuntimeState) : RuntimeState :=
  { s with
    status := ExecutionStatus.Paused
    logs := s.logs ++ [LogEntry.info "Workflow execution paused"] }

/-- Embeds `Runtime::resume`: sets `Running` unconditionally and clears the
step latch and paused-node marker. -/
def resume (s : RuntimeState) : RuntimeState :=
  { s with
    status := ExecutionStatus.Running
    debug := { s.debug with stepPending := false, pausedAtNode := none }
    logs := s.logs ++ [LogEntry.info "Workflow execution resumed"] }

/-- Embeds `Runtime::step`: only acts when the status is `Paused`. -/
def step (s : RuntimeState) : RuntimeState :=
  if s.status = ExecutionStatus.Paused then
    { s with
      status := ExecutionStatus.Running
      debug := { s.debug with stepPending := true, pausedAtNode := none }
      logs := s.logs ++ [LogEntry.info "Step execution"] }
  else s

/-- Embeds `Runtime::complete`. -/
def complete (s : RuntimeState) : RuntimeState :=
  { s with
    status := ExecutionStatus.Completed
    endTimeSet := true
    debug := { s.debug with mode := DebugMode.None }
    logs := s.logs ++ [LogEntry.info "Workflow execution completed"] }

/-- Embeds `Runtime::fail`. -/
def fail (error : String) (s : RuntimeState) : RuntimeState :=
  { s with
    status := ExecutionStatus.Failed
    endTimeSet := true
    error := some error
    debug := { s.debug with mode := DebugMode.None }
    logs := s.logs ++ [LogEntry.error ("Workflow execution failed: " ++ error)] }

/-- Embeds `Runtime::set_current_node`. -/
def setCurrentNode (nodeId : Option String) (s : RuntimeState) : RuntimeState :=
  { s with currentNodeId := nodeId }

/-- Embeds `Runtime::add_log`. -/
def addLog (log : LogEntry) (s : RuntimeState) : RuntimeState :=
  { s with logs := s.logs ++ [log] }

/-- Embeds `Runtime::add_breakpoint`. -/
def addBreakpoint (nodeId : String) (s : RuntimeState) : RuntimeState :=
  { s with
    debug := { s.debug with
      breakpoints :=
        if s.debug.breakpoints.contains nodeId then s.debug.breakpoints
        else s.debug.breakpoints ++ [nodeId] }
    logs := s.logs ++ [LogEntry.info ("Breakpoint added: " ++ nodeId)] }

/-- Embeds `Runtime::should_pause_at_node`. -/
def shouldPauseAtNode (nodeId : String) (s : RuntimeState) : Bool :=
  match s.debug.mode with
  | DebugMode.None => false
  | DebugMode.StepByStep => true
  | DebugMode.Breakpoint => s.debug.breakpoints.contains nodeId

/-- Embeds `Runtime::pause_at_node`. -/
def pauseAtNode (nodeId : String) (s : RuntimeState) : RuntimeState :=
  { s with
    status := ExecutionStatus.Paused
    debug := { s.debug with pausedAtNode := some nodeId }
    logs := s.logs ++
      [(LogEntry.info ("Paused at node: " ++ nodeId)).withNode nodeId] }

end Runtime

/-- Embeds the `EngineError` variants the modelled engine paths produce. -/
inductive EngineError where
  | invalidWorkflow (msg : String) : EngineError
  | executionFailed (msg : String) : EngineError
deriving Repr, DecidableEq

/-- The `thiserror`-derived `Display` of `EngineError` (`e.to_string()`). -/
def EngineError.toErrorString : EngineError → String
  | .invalidWorkflow msg => "Invalid workflow: " ++ msg
  | .executionFailed msg => "Execution failed: " ++ msg

/-- Embeds `WorkflowNode` of `engine/executor.rs`.  The `position` field (a
pair of `f64` canvas coordinates) is never read by the execution engine and is
omitted; `data` is the node's opaque JSON map. -/
structure WorkflowNode where
  id : String
  node_type : String
  data : List (String × Json)
  label : Option String

/-- Embeds `WorkflowEdge` of `engine/executor.rs`.  The serde field names are
exactly the Rust field names (`source_handle`, `target_handle`): the struct
carries no rename attribute. -/
structure WorkflowEdge where
  id : String
  source : String
  target : String
  source_handle : Option String
  target_handle : Option String
deriving Repr, DecidableEq

/-- Embeds `Workflow` of `engine/executor.rs`. -/
structure Workflow where
  id : String
  name : String
  nodes : List WorkflowNode
  edges : List WorkflowEdge

/-- Embeds `Workflow::find_start_node`. -/
def Workflow.findStartNode (g : Workflow) : Option WorkflowNode :=
  g.nodes.find? (fun n => n.node_type == "start")

/-- Embeds `Workflow::find_node`. -/
def Workflow.findNode (g : Workflow) (id : String) : Option WorkflowNode :=
  g.nodes.find? (fun n => n.id == id)

/-- Embeds `Workflow::find_next_nodes`: every edge whose source matches,
regardless of handle, in edge-declaration order. -/
def Workflow.findNextNodes (g : Workflow) (nodeId : String) : List WorkflowNode :=
  (g.edges.filter (fun e => e.source == nodeId)).filterMap (fun e => g.findNode e.target)

/-- Embeds `Workflow::find_next_nodes_by_handle`. -/
def Workflow.findNextNodesByHandle (g : Workflow) (nodeId : String)
    (sourceHandle : String) : List WorkflowNode :=
  (g.edges.filter (fun e =>
    e.source == nodeId &&
      (match e.source_handle with
       | some h => h == sourceHandle
       | none => false))).filterMap (fun e => g.findNode e.target)

/-- Embeds `WorkflowNode::data.get(key).and_then(|v| v.as_str())`. -/
def WorkflowNode.dataStr (n : WorkflowNode) (key : String) : Option String :=
  (jsonLookup n.data key).bind Json.asStr

/-- Embeds `WorkflowNode::data.get(key).and_then(|v| v.as_u64())`. -/
def WorkflowNode.dataU64 (n : WorkflowNode) (key : String) : Option Nat :=
  (jsonLookup n.data key).bind Json.asU64

/-- Embeds `Executor::evaluate_simple_expression`. -/
def evaluateSimpleExpression (expr : String) : Bool :=
  let e := toLowerChars (trimChars expr.data)
  e == "true".data || e == "1".data || e == "yes".data

/-- Host-side coordinator commands.  The real host (the UI) calls
`Executor::pause/resume/step` concurrently; every coordinator call inside the
executor is an `await` point, so commands interleave at those points.  The
model applies a scripted command sequence inside `Runtime.waitForStep`
(between two polls of its 50 ms sleep loop), which is where a blocked
executor observes them. -/
inductive HostCmd where
  | pause : HostCmd
  | resume : HostCmd
  | step : HostCmd
deriving Repr, DecidableEq

/-- Applies one host command to the coordinator state. -/
def applyHostCmd : HostCmd → RuntimeState → RuntimeState
  | .pause, s => Runtime.pause s
  | .resume, s => Runtime.resume s
  | .step, s => Runtime.step s

/-- Embeds `Runtime::wait_for_step`: return as soon as the status is not
`Paused` or the step latch is set (note the latch is never cleared here);
otherwise poll again after the next host command.  `none` means the loop
would spin forever because no further host command arrives. -/
def Runtime.waitForStep : List HostCmd → RuntimeState → Option (RuntimeState × List HostCmd)
  | script, rt =>
    if rt.status ≠ ExecutionStatus.Paused ∨ rt.debug.stepPending then some (rt, script)
    else
      match script with
      | [] => none
      | c :: rest => Runtime.waitForStep rest (applyHostCmd c rt)

/-- Environment of external capabilities (the `FileAutomation` driver):
`readFile path` yields the file content or the driver error's display
string. -/
structure ExtEnv where
  readFile : String → Except String String

/-- Execution state threaded through the interpreter: the coordinator state
and variable store (the two `RwLock`s of `Runtime`), the pending host-command
script, and an instrumentation list `visits` recording the node id of every
`set_current_node` call (exactly one per node visit in
`Executor::execute_from_node`). -/
structure EngineState where
  rt : RuntimeState
  vars : VariableStore
  script : List HostCmd
  visits : List String

/-- Fresh engine state for a workflow id (a new `Runtime`) with a host
command script. -/
def EngineState.new (workflowId : String) (script : List HostCmd) : EngineState :=
  ⟨RuntimeState.new workflowId, VariableStore.new, script, []⟩

/-- Appends a log entry (embeds `Runtime::add_log` at the engine level). -/
def EngineState.addLogE (s : EngineState) (entry : LogEntry) : EngineState :=
  { s with rt := Runtime.addLog entry s.rt }

/-- Appends an Info log tagged with a node id. -/
def EngineState.addLogNode (s : EngineState) (msg : String) (nodeId : String) : EngineState :=
  s.addLogE ((LogEntry.info msg).withNode nodeId)

/-- Embeds `Runtime::set_variable`: the scope is hard-coded to `Global`. -/
def EngineState.setVariable (s : EngineState) (name : String) (value : VariableValue) :
    EngineState :=
  { s with vars := s.vars.set name value VariableScope.Global }

/-- Embeds the engine-level view of `Runtime::wait_for_step`. -/
def EngineState.waitForStep (s : EngineState) : Option EngineState :=
  match Runtime.waitForStep s.script s.rt with
  | some (rt, script) => some { s with rt := rt, script := script }
  | none => none

/-- Result of an interpreter step.  `ok`/`err` embed the Rust
`EngineResult<()>`; `blocked` marks a `wait_for_step` that would spin forever
(no host command left); `fuelOut` marks exhaustion of the model's recursion
fuel (the Rust recursion has no such bound); `unmodelled` marks a node type
whose handler lies outside the verified fragment (desktop/web/excel/process
handlers and the `condition`/`forEach` routines — no verified claim's graph
contains such a node). -/
inductive Outcome where
  | ok : Outcome
  | err (e : EngineError) : Outcome
  | blocked : Outcome
  | fuelOut : Outcome
  | unmodelled : Outcome
deriving Repr, DecidableEq

/-- Built-in handler types of `Executor::execute_node` whose bodies are
outside the verified fragment. -/
def unmodelledTypes : List String :=
  ["click", "input", "getText", "delay", "setVariable", "writeFile",
   "waitElement", "hotkey", "screenshot", "openBrowser", "navigate",
   "webClick", "webInput", "webGetText", "closeBrowser", "executeJs",
   "readExcel", "writeExcel", "executeCommand", "listDirectory", "openApp"]

/-- Embeds `Executor::execute_log`. -/
def executeLogNode (node : WorkflowNode) (s : EngineState) : Outcome × EngineState :=
  let message := (node.dataStr "message").getD ""
  let interpolated := s.vars.interpolate message
  (Outcome.ok, s.addLogE ((LogEntry.info interpolated).withNode node.id))

/-- Embeds `Executor::execute_read_file`. -/
def executeReadFileNode (env : ExtEnv) (node : WorkflowNode) (s : EngineState) :
    Outcome × EngineState :=
  let filePath := (node.dataStr "filePath").getD ""
  let varName := (node.dataStr "variableName").getD "fileContent"
  let interpolatedPath := s.vars.interpolate filePath
  let s := s.addLogNode ("Reading file: " ++ interpolatedPath) node.id
  match env.readFile interpolatedPath with
  | .ok content =>
    let s := s.setVariable varName (VariableValue.str content)
    let s := s.addLogNode
      ("File read successfully, " ++ toString content.utf8ByteSize ++
        " bytes saved to '" ++ varName ++ "'") node.id
    (Outcome.ok, s)
  | .error e =>
    let s := s.addLogE ((LogEntry.error ("Failed to read file: " ++ e)).withNode node.id)
    (Outcome.err (EngineError.executionFailed ("Failed to read file: " ++ e)), s)

/-- Embeds `Executor::execute_node` (the per-type handler dispatch).  The
`condition`/`loop`/`forEach`/`tryCatch` arm mirrors the source's no-op arm
(those types are routed earlier in `execute_from_node`); the final arm is the
unknown-type fallback: an Info log and `Ok(())`. -/
def executeNode (env : ExtEnv) (node : WorkflowNode) (s : EngineState) :
    Outcome × EngineState :=
  match node.node_type with
  | "start" => (Outcome.ok, s)
  | "end" => (Outcome.ok, s)
  | "log" => executeLogNode node s
  | "readFile" => executeReadFileNode env node s
  | "condition" => (Outcome.ok, s)
  | "loop" => (Outcome.ok, s)
  | "forEach" => (Outcome.ok, s)
  | "tryCatch" => (Outcome.ok, s)
  | t =>
    if unmodelledTypes.contains t then (Outcome.unmodelled, s)
    else
      (Outcome.ok, s.addLogE ((LogEntry.info ("Unknown node type: " ++ t)).withNode node.id))

mutual

/-- Embeds `Executor::execute_from_node` (executor.rs lines 139-206): failure
short-circuit, `wait_for_step`, second failure check, current-node tracking
plus the "Executing node" log (also recorded in `visits`), the debug pause,
then the control-flow dispatch or the normal handler followed by the plain
outgoing edges.  `fuel` bounds only the recursion depth of the graph walk
(the Rust recursion is unbounded). -/
def executeFromNode (env : ExtEnv) (g : Workflow) (fuel : Nat) (node : WorkflowNode)
    (s : EngineState) : Outcome × EngineState :=
  match fuel with
  | 0 => (Outcome.fuelOut, s)
  | fuel + 1 =>
    if s.rt.status = ExecutionStatus.Failed then (Outcome.ok, s)
    else
      match s.waitForStep with
      | none => (Outcome.blocked, s)
      | some s =>
        if s.rt.status = ExecutionStatus.Failed then (Outcome.ok, s)
        else
          let execLog := (LogEntry.info
            ("Executing node: " ++ node.label.getD node.id ++
              " (" ++ node.node_type ++ ")")).withNode node.id
          let s : EngineState :=
            { s with
              rt := Runtime.addLog execLog (Runtime.setCurrentNode (some node.id) s.rt)
              visits := s.visits ++ [node.id] }
          if Runtime.shouldPauseAtNode node.id s.rt then
            let s := { s with rt := Runtime.pauseAtNode node.id s.rt }
            match s.waitForStep with
            | none => (Outcome.blocked, s)
            | some s => dispatchNode env g fuel node s
          else
            dispatchNode env g fuel node s
termination_by (fuel, 0, 0)

/-- The tail of `execute_from_node`: route the four control-flow types to
their specialized routines (`condition`/`forEach` are outside the verified
fragment), otherwise run the normal handler and then every plain outgoing
edge in declaration order. -/
def dispatchNode (env : ExtEnv) (g : Workflow) (fuel : Nat) (node : WorkflowNode)
    (s : EngineState) : Outcome × EngineState :=
  match node.node_type with
  | "condition" => (Outcome.unmodelled, s)
  | "loop" => executeLoopNode env g fuel node s
  | "forEach" => (Outcome.unmodelled, s)
  | "tryCatch" => executeTryCatchNode env g fuel node s
  | _ =>
    match executeNode env node s with
    | (Outcome.ok, s) => execSeq env g fuel (g.findNextNodes node.id) s
    | other => other
termination_by (fuel, 4, 0)

/-- Sequential execution of a node list, stopping at the first outcome that
is not `ok` (embeds the `for ... { self.execute_from_node(n).await? }` loops
of the executor; inside `tryCatch` the first error likewise stops the list,
mirroring the `break`). -/
def execSeq (env : ExtEnv) (g : Workflow) (fuel : Nat) (nodes : List WorkflowNode)
    (s : EngineState) : Outcome × EngineState :=
  match nodes with
  | [] => (Outcome.ok, s)
  | n :: rest =>
    match executeFromNode env g fuel n s with
    | (Outcome.ok, s) => execSeq env g fuel rest s
    | other => other
termination_by (fuel, 1, nodes.length)

/-- Embeds `Executor::execute_loop_node` (executor.rs lines 611-715). -/
def executeLoopNode (env : ExtEnv) (g : Workflow) (fuel : Nat) (node : WorkflowNode)
    (s : EngineState) : Outcome × EngineState :=
  let loopType := (node.dataStr "loopType").getD "count"
  let indexVariable := (node.dataStr "indexVariable").getD "index"
  let loopResult :=
    match loopType with
    | "count" =>
      let count := (node.dataU64 "count").getD 1
      let s := s.addLogNode
        ("Starting count loop: " ++ toString count ++ " iterations") node.id
      loopCountAux env g fuel node indexVariable count count 0 s
    | "while" =>
      let conditionStr := (node.dataStr "condition").getD "false"
      let s := s.addLogNode ("Starting while loop: " ++ conditionStr) node.id
      loopWhileAux env g fuel node indexVariable conditionStr 10000 0 s
    | _ => (Outcome.ok, s)
  match loopResult with
  | (Outcome.ok, s) =>
    execSeq env g fuel (g.findNextNodesByHandle node.id "done") s
  | other => other
termination_by (fuel, 3, 0)

/-- The `for i in 0..count` loop of the count branch: `remaining` counts the
iterations still to run, `i` is the current index. -/
def loopCountAux (env : ExtEnv) (g : Workflow) (fuel : Nat) (node : WorkflowNode)
    (indexVariable : String) (count : Nat) (remaining : Nat) (i : Nat)
    (s : EngineState) : Outcome × EngineState :=
  match remaining with
  | 0 => (Outcome.ok, s)
  | remaining + 1 =>
    let s := s.setVariable indexVariable (VariableValue.num i)
    let s := s.addLogNode
      ("Loop iteration " ++ toString (i + 1) ++ "/" ++ toString count) node.id
    match execSeq env g fuel (g.findNextNodesByHandle node.id "body") s with
    | (Outcome.ok, s) => loopCountAux env g fuel node indexVariable count remaining (i + 1) s
    | other => other
termination_by (fuel, 2, remaining)

/-- The `while iteration < max_iterations` loop of the while branch, with the
10 000-iteration safety limit: `remaining = 10000 - iteration` iterations may
still run.  The condition is re-interpolated against the current store before
every iteration. -/
def loopWhileAux (env : ExtEnv) (g : Workflow) (fuel : Nat) (node : WorkflowNode)
    (indexVariable : String) (conditionStr : String) (remaining : Nat)
    (iteration : Nat) (s : EngineState) : Outcome × EngineState :=
  match remaining with
  | 0 => (Outcome.ok, s)
  | remaining + 1 =>
    let interpolated := s.vars.interpolate conditionStr
    if evaluateSimpleExpression interpolated then
      let s := s.setVariable indexVariable (VariableValue.num iteration)
      let s := s.addLogNode ("While loop iteration " ++ toString (iteration + 1)) node.id
      match execSeq env g fuel (g.findNextNodesByHandle node.id "body") s with
      | (Outcome.ok, s) =>
        loopWhileAux env g fuel node indexVariable conditionStr remaining (iteration + 1) s
      | other => other
    else (Outcome.ok, s)
termination_by (fuel, 2, remaining)

/-- Embeds `Executor::execute_try_catch_node` (executor.rs lines 803-891). -/
def executeTryCatchNode (env : ExtEnv) (g : Workflow) (fuel : Nat) (node : WorkflowNode)
    (s : EngineState) : Outcome × EngineState :=
  let errorVariable := (node.dataStr "errorVariable").getD "error"
  let maxRetries := (node.dataU64 "maxRetries").getD 0
  let s := s.addLogNode
    ("Starting try-catch block (max retries: " ++ toString maxRetries ++ ")") node.id
  let tryNodes := g.findNextNodesByHandle node.id "try"
  match tryAttempts env g fuel node tryNodes maxRetries (maxRetries + 1) 0 none s with
  | Except.error earlyReturn => earlyReturn
  | Except.ok (lastError, s) =>
    let s :=
      match lastError with
      | some error =>
        let s := s.setVariable errorVariable (VariableValue.str error)
        s.addLogE ((LogEntry.warn ("Caught error: " ++ error)).withNode node.id)
      | none => s
    match execSeq env g fuel (g.findNextNodesByHandle node.id "catch") s with
    | (Outcome.ok, s) =>
      match execSeq env g fuel (g.findNextNodesByHandle node.id "finally") s with
      | (Outcome.ok, s) => (Outcome.ok, s)
      | other => other
    | other => other
termination_by (fuel, 3, 0)

/-- The `for attempt in 0..=max_retries` loop of `execute_try_catch_node`:
`remaining` attempts are left, `attempt` is the current attempt index,
`lastError` threads the `last_error` variable.  On a successful attempt the
source executes the `finally` edges and returns from the whole routine:
`Except.error` carries that early return (the `retry_delay` sleep has no
state effect and is not modelled). -/
def tryAttempts (env : ExtEnv) (g : Workflow) (fuel : Nat) (node : WorkflowNode)
    (tryNodes : List WorkflowNode) (maxRetries : Nat) (remaining : Nat)
    (attempt : Nat) (lastError : Option String) (s : EngineState) :
    Except (Outcome × EngineState) (Option String × EngineState) :=
  match remaining with
  | 0 => Except.ok (lastError, s)
  | remaining + 1 =>
    let s :=
      if attempt > 0 then
        s.addLogNode
          ("Retry attempt " ++ toString attempt ++ "/" ++ toString maxRetries) node.id
      else s
    match execSeq env g fuel tryNodes s with
    | (Outcome.ok, s) =>
      match execSeq env g fuel (g.findNextNodesByHandle node.id "finally") s with
      | (Outcome.ok, s) => Except.error (Outcome.ok, s)
      | other => Except.error other
    | (Outcome.err e, s) =>
      tryAttempts env g fuel node tryNodes maxRetries remaining (attempt + 1)
        (some e.toErrorString) s
    | other => Except.error other
termination_by (fuel, 2, remaining)

end

/-- Embeds `Executor::execute` (executor.rs lines 104-119): `Runtime::start`,
then the start-node lookup (early `?` return on `InvalidWorkflow` — note
`Runtime::fail` is not invoked on that path), then the traversal with
`fail`/`complete` on its outcome. -/
def executeWorkflow (env : ExtEnv) (g : Workflow) (fuel : Nat) (s0 : EngineState) :
    Outcome × EngineState :=
  let s := { s0 with rt := Runtime.start s0.rt }
  match g.findStartNode with
  | none => (Outcome.err (EngineError.invalidWorkflow "No start node found"), s)
  | some startNode =>
    match executeFromNode env g fuel startNode s with
    | (Outcome.ok, s) => (Outcome.ok, { s with rt := Runtime.complete s.rt })
    | (Outcome.err e, s) => (Outcome.err e, { s with rt := Runtime.fail e.toErrorString s.rt })
    | other => other

/-- Embeds `Executor::execute_debug` (executor.rs lines 122-137). -/
def executeWorkflowDebug (env : ExtEnv) (mode : DebugMode) (g : Workflow) (fuel : Nat)
    (s0 : EngineState) : Outcome × EngineState :=
  let s := { s0 with rt := Runtime.startDebug mode s0.rt }
  match g.findStartNode with
  | none => (Outcome.err (EngineError.invalidWorkflow "No start node found"), s)
  | some startNode =>
    match executeFromNode env g fuel startNode s with
    | (Outcome.ok, s) => (Outcome.ok, { s with rt := Runtime.complete s.rt })
    | (Outcome.err e, s) => (Outcome.err e, { s with rt := Runtime.fail e.toErrorString s.rt })
    | other => other

/-- Serialization of `Option<String>` under serde's default behavior:
`None` becomes JSON `null` (the derived `WorkflowEdge` serializer carries no
`skip_serializing_if`). -/
def optStrToJson : Option String → Json
  | some s => Json.str s
  | none => Json.null

/-- The serde-derived `Serialize` impl of `WorkflowEdge`: an object whose
fields appear in declaration order under the Rust field names. -/
def WorkflowEdge.toJson (e : WorkflowEdge) : Json :=
  Json.obj
    [("id", Json.str e.id),
     ("source", Json.str e.source),
     ("target", Json.str e.target),
     ("source_handle", optStrToJson e.source_handle),
     ("target_handle", optStrToJson e.target_handle)]

/-- Deserialization of a required `String` field. -/
def jsonFieldStr (fields : List (String × Json)) (key : String) : Option String :=
  (jsonLookup fields key).bind Json.asStr

/-- Deserialization of an `Option<String>` field under serde's default
behavior: a missing field and an explicit `null` both give `None`; any
non-string, non-null value is an error. -/
def jsonFieldOptStr (fields : List (String × Json)) (key : String) :
    Option (Option String) :=
  match jsonLookup fields key with
  | none => some none
  | some Json.null => some none
  | some (Json.str s) => some (some s)
  | some _ => none

/-- The serde-derived `Deserialize` impl of `WorkflowEdge`: required string
fields must be present, `Option` fields default to `None` when absent, and
unknown fields (there is no `deny_unknown_fields` attribute) are ignored. -/
def WorkflowEdge.fromJson : Json → Option WorkflowEdge
  | Json.obj fields => do
    let id ← jsonFieldStr fields "id"
    let source ← jsonFieldStr fields "source"
    let target ← jsonFieldStr fields "target"
    let source_handle ← jsonFieldOptStr fields "source_handle"
    let target_handle ← jsonFieldOptStr fields "target_handle"
    some ⟨id, source, target, source_handle, target_handle⟩
  | _ => none

/-- The complete set of node type strings carrying a dedicated arm in
`Executor::execute_node` (including the four control-flow types routed
earlier in `execute_from_node`); any other type falls to the unknown-type
arm. -/
def builtinNodeTypes : List String :=
  ["start", "end", "log", "readFile", "condition", "loop", "forEach", "tryCatch"] ++
    unmodelledTypes

/-- External environment whose file driver fails every read with the error
display string `"boom"`. -/
def failingEnv : ExtEnv := ⟨fun _ => Except.error "boom"⟩

/-- External environment whose file driver returns `"data"` for every
read. -/
def okEnv : ExtEnv := ⟨fun _ => Except.ok "data"⟩

/-- A `start` node with id `"s"`. -/
def startNode : WorkflowNode := ⟨"s", "start", [], none⟩

/-- A `log` node. -/
def logNode (id msg : String) : WorkflowNode :=
  ⟨id, "log", [("message", Json.str msg)], none⟩

/-- A `readFile` node. -/
def readFileNode (id path : String) : WorkflowNode :=
  ⟨id, "readFile", [("filePath", Json.str path)], none⟩

/-- A plain edge (no handles). -/
def plainEdge (id src tgt : String) : WorkflowEdge := ⟨id, src, tgt, none, none⟩

/-- An edge with a source handle. -/
def handleEdge (id src tgt h : String) : WorkflowEdge := ⟨id, src, tgt, some h, none⟩

/-- A `tryCatch` node with id `"t"`, error variable `"e"` and the given
`maxRetries`. -/
def tryCatchNode (maxRetries : Nat) : WorkflowNode :=
  ⟨"t", "tryCatch",
   [("maxRetries", Json.num (Int.ofNat maxRetries)), ("errorVariable", Json.str "e")],
   none⟩

/-- Workflow whose tryCatch block has a failing `readFile` on the try branch,
a second failing `readFile` on the catch branch, and a log node `"l"` on the
finally branch (run under `failingEnv`; under `okEnv` both reads succeed). -/
def gCatchFails : Workflow :=
  ⟨"w1", "w1",
   [startNode, tryCatchNode 0, readFileNode "f" "/fail", readFileNode "c" "/fail2",
    logNode "l" "fin"],
   [plainEdge "e1" "s" "t", handleEdge "e2" "t" "f" "try",
    handleEdge "e3" "t" "c" "catch", handleEdge "e4" "t" "l" "finally"]⟩

/-- Workflow whose tryCatch block (with the given `maxRetries`) has a failing
`readFile` node `"f"` on the try branch, a log node `"c"` on the catch branch
and a log node `"l"` on the finally branch. -/
def gRetry (maxRetries : Nat) : Workflow :=
  ⟨"w4", "w4",
   [startNode, tryCatchNode maxRetries, readFileNode "f" "/fail",
    logNode "c" "caught", logNode "l" "fin"],
   [plainEdge "e1" "s" "t", handleEdge "e2" "t" "f" "try",
    handleEdge "e3" "t" "c" "catch", handleEdge "e4" "t" "l" "finally"]⟩

/-- A three-node chain `start → a → b` of log nodes (step-debug scenario). -/
def gChain : Workflow :=
  ⟨"w2", "w2", [startNode, logNode "a" "A", logNode "b" "B"],
   [plainEdge "e1" "s" "a", plainEdge "e2" "a" "b"]⟩

/-- The `loop` node of the while-loop workflow: `loopType = "while"`,
condition the literal `"true"`, index variable `"i"`. -/
def whileLoopNode : WorkflowNode :=
  ⟨"L", "loop",
   [("loopType", Json.str "while"), ("condition", Json.str "true"),
    ("indexVariable", Json.str "i")],
   none⟩

/-- Workflow `start → loop(while true)` with a log node `"b"` on the body
handle and a log node `"d"` on the done handle. -/
def gWhile : Workflow :=
  ⟨"w8", "w8", [startNode, whileLoopNode, logNode "b" "tick", logNode "d" "end"],
   [plainEdge "e1" "s" "L", handleEdge "e2" "L" "b" "body",
    handleEdge "e3" "L" "d" "done"]⟩

/-- A workflow without any `start` node. -/
def gNoStart : Workflow :=
  ⟨"w9", "w9", [logNode "a" "A"], []⟩

/-- A node whose type string `"myPlugin"` is not a built-in type (the kind of
type a plugin would register). -/
def myPluginNode : WorkflowNode := ⟨"p1", "myPlugin", [], none⟩

/-- Workflow `start → myPlugin`. -/
def gUnknownType : Workflow :=
  ⟨"w6", "w6", [startNode, myPluginNode], [plainEdge "e1" "s" "p1"]⟩

/-- A store (in an iteration order the Rust `HashMap` may realise) holding
`a = "$\x7bb\x7d"` and `b = "x"`, built through `VariableStore::set`. -/
def rescanStore : VariableStore :=
  (VariableStore.new.set "a" (VariableValue.str "$\x7bb\x7d") VariableScope.Global).set
    "b" (VariableValue.str "x") VariableScope.Global

/-- An edge document of the documented external JSON format: camelCase
`sourceHandle` carrying the `"true"` branch handle. -/
def jEdgeCamel : Json :=
  Json.obj
    [("id", Json.str "e1"), ("source", Json.str "a"), ("target", Json.str "b"),
     ("sourceHandle", Json.str "true")]

/-- Modelled from the spec (§4.3 / §4.5: "Unknown node types: delegated to
the Plugin Registry. If unregistered, the node is logged and skipped"):
what the dispatcher is specified to do with a node type outside the built-in
set, as a function of the set of plugin-registered types.  The source
`Executor` holds no reference to the `PluginRegistry`, so this definition
exists only to be compared with the source behavior. -/
inductive UnknownTypeDispatch where
  | delegatedToPlugin (t : String) : UnknownTypeDispatch
  | infoLoggedAndSkipped (t : String) : UnknownTypeDispatch
deriving Repr, DecidableEq

/-- Modelled from the spec: the specified dispatch of an unknown node type
(see `UnknownTypeDispatch`). -/
def specUnknownTypeDispatch (registeredTypes : List String) (t : String) :
    UnknownTypeDispatch :=
  if registeredTypes.contains t then UnknownTypeDispatch.delegatedToPlugin t
  else UnknownTypeDispatch.infoLoggedAndSkipped t

/-- Writes performed through `Runtime::set_variable` (the single write path
used by every node handler and by the plugin host context's
`set_variable`/`set_number`/`set_boolean`), applied in order: each write
passes `VariableScope::Global`. -/
def applyEngineWrites : List (String × VariableValue) → VariableStore → VariableStore
  | [], store => store
  | (name, value) :: rest, store =>
    applyEngineWrites rest (store.set name value VariableScope.Global)

/-- Every entry of the store carries the `Global` scope tag. -/
def allGlobal (store : VariableStore) : Prop :=
  ∀ p ∈ store.entries, p.2.scope = VariableScope.Global

/-- Shorthand: `String.mk` undoes `String.data`. -/
theorem stringMk_data (s : String) : String.mk s.data = s := rfl

/-- A fuelled replace pass leaves a string without any occurrence of the
(nonempty) pattern unchanged. -/
theorem replaceAllFuel_eq_of_not_infix (pat rep : List Char) :
    ∀ (fuel : Nat) (s : List Char), pat ≠ [] → ¬ pat <:+: s → s.length ≤ fuel →
      replaceAllFuel fuel s pat rep = s := by
  intro fuel
  induction fuel with
  | zero =>
    intro s _ _ hlen
    interval_cases h : s.length
    · simp [List.length_eq_zero.mp h, replaceAllFuel]
  | succ fuel ih =>
    intro s hne hinf hlen
    match s with
    | [] => simp [replaceAllFuel]
    | c :: rest =>
      have hpre : pat.isPrefixOf (c :: rest) = false := by
        by_contra h
        have : pat.isPrefixOf (c :: rest) = true := by
          revert h
          cases pat.isPrefixOf (c :: rest) <;> simp
        exact hinf (List.IsPrefix.isInfix (List.isPrefixOf_iff_prefix.mp this))
      have hrest : ¬ pat <:+: rest := fun h => hinf (List.infix_cons h)
      simp only [replaceAllFuel, hpre, Bool.and_false, Bool.false_eq_true, if_neg,
        Bool.and_eq_true, and_false]
      simp only [List.length_cons, Nat.succ_le_succ_iff] at hlen
      rw [ih rest hne hrest hlen]
      simp

/-- `str::replace` leaves a string without any occurrence of the (nonempty)
pattern unchanged. -/
theorem replaceAllChars_eq_of_not_infix {pat : List Char} (rep : List Char)
    {s : List Char} (hne : pat ≠ []) (hinf : ¬ pat <:+: s) :
    replaceAllChars s pat rep = s :=
  replaceAllFuel_eq_of_not_infix pat rep s.length s hne hinf (Nat.le_refl _)

/-- The fuelled replace pass maps the empty subject to the empty list. -/
theorem replaceAllFuel_nil (fuel : Nat) (pat rep : List Char) :
    replaceAllFuel fuel [] pat rep = [] := by
  cases fuel <;> simp [replaceAllFuel]

/-- Replacing a nonempty pattern inside exactly itself yields exactly the
replacement (the replacement text is not rescanned). -/
theorem replaceAllChars_self {pat : List Char} (rep : List Char) (hne : pat ≠ []) :
    replaceAllChars pat pat rep = rep := by
  match pat with
  | [] => exact absurd rfl hne
  | c :: rest =>
    have hpre : (c :: rest).isPrefixOf (c :: rest) = true :=
      List.isPrefixOf_iff_prefix.mpr (List.prefix_refl _)
    simp [replaceAllChars, replaceAllFuel, hpre, List.drop_length, replaceAllFuel_nil,
      List.drop_succ_cons]

/-- A placeholder token is never the empty character list. -/
theorem placeholderChars_ne_nil (name : String) : placeholderChars name ≠ [] := by
  simp [placeholderChars, String.data_append]

/-- A placeholder token contains a dollar sign. -/
theorem dollar_mem_placeholderChars (name : String) : '$' ∈ placeholderChars name := by
  simp [placeholderChars, String.data_append]

/-- An interpolation pass leaves text containing no placeholder of any store
entry unchanged. -/
theorem interpolateChars_eq_of_no_placeholder
    (entries : List (String × Variable)) (text : List Char)
    (h : ∀ p ∈ entries, ¬ placeholderChars p.1 <:+: text) :
    interpolateChars entries text = text := by
  induction entries with
  | nil => rfl
  | cons p rest ih =>
    have hstep : replaceAllChars text (placeholderChars p.1) p.2.value.toStringValue.data
        = text :=
      replaceAllChars_eq_of_not_infix _ (placeholderChars_ne_nil p.1)
        (h p (List.mem_cons_self p rest))
    simpa [interpolateChars, hstep] using
      ih (fun q hq => h q (List.mem_cons_of_mem p hq))

/-- An interpolation pass leaves text without any dollar sign unchanged,
whatever the store contains. -/
theorem interpolateChars_eq_of_no_dollar
    (entries : List (String × Variable)) (text : List Char)
    (h : ∀ c ∈ text, c ≠ '$') : interpolateChars entries text = text := by
  refine interpolateChars_eq_of_no_placeholder entries text (fun p _ hinf => ?_)
  exact h '$' (hinf.subset (dollar_mem_placeholderChars p.1)) rfl

/-- `VariableStore::interpolate` leaves a string without any dollar sign
unchanged. -/
theorem interpolate_eq_of_no_dollar (store : VariableStore) (text : String)
    (h : ∀ c ∈ text.data, c ≠ '$') : store.interpolate text = text := by
  unfold VariableStore.interpolate
  rw [interpolateChars_eq_of_no_dollar store.entries text.data h, stringMk_data]

/-- Splitting an interpolation pass at a list append. -/
theorem interpolateChars_append (l1 l2 : List (String × Variable)) (t : List Char) :
    interpolateChars (l1 ++ l2) t = interpolateChars l2 (interpolateChars l1 t) := by
  simp [interpolateChars, List.foldl_append]

/-- One step of an interpolation pass. -/
theorem interpolateChars_cons (p : String × Variable) (l : List (String × Variable))
    (t : List Char) :
    interpolateChars (p :: l) t =
      interpolateChars l
        (replaceAllChars t (placeholderChars p.1) p.2.value.toStringValue.data) := rfl

/-- C5 (amended): for a store entry `v` with display string `s`,
`interpolate` on the single token text returns exactly `s` provided no other
entry's placeholder occurs inside the token or inside `s`; without that
proviso the pass over later entries re-scans the substituted value (see the
counterexample), so the unconditional claim fails. -/
theorem interpolate_single_token_exact
    (store : VariableStore) (v : String) (var : Variable) (s : String)
    (hmem : (v, var) ∈ store.entries)
    (hnodup : (store.entries.map Prod.fst).Nodup)
    (hval : var.value.toStringValue = s)
    (hsafe : ∀ p ∈ store.entries, p.1 ≠ v →
      ¬ placeholderChars p.1 <:+: placeholderChars v ∧
      ¬ placeholderChars p.1 <:+: s.data) :
    store.interpolate ("$\x7b" ++ v ++ "\x7d") = s := by
  obtain ⟨pre, post, hsplit⟩ := List.append_of_mem hmem
  have hmap : store.entries.map Prod.fst =
      pre.map Prod.fst ++ v :: post.map Prod.fst := by
    simp [hsplit]
  rw [hmap] at hnodup
  have hvnot : v ∉ pre.map Prod.fst ++ post.map Prod.fst :=
    (List.nodup_cons.mp (List.nodup_middle.mp hnodup)).1
  have hprene : ∀ p ∈ pre, p.1 ≠ v := by
    intro p hp heq
    exact hvnot (List.mem_append_left _ (heq ▸ List.mem_map_of_mem Prod.fst hp))
  have hpostne : ∀ p ∈ post, p.1 ≠ v := by
    intro p hp heq
    exact hvnot (List.mem_append_right _ (heq ▸ List.mem_map_of_mem Prod.fst hp))
  have hpremem : ∀ p ∈ pre, p ∈ store.entries := by
    intro p hp; rw [hsplit]; exact List.mem_append_left _ hp
  have hpostmem : ∀ p ∈ post, p ∈ store.entries := by
    intro p hp; rw [hsplit]
    exact List.mem_append_right _ (List.mem_cons_of_mem _ hp)
  have htext : ("$\x7b" ++ v ++ "\x7d").data = placeholderChars v := rfl
  unfold VariableStore.interpolate
  rw [hsplit, htext, interpolateChars_append, interpolateChars_cons]
  rw [interpolateChars_eq_of_no_placeholder pre (placeholderChars v)
    (fun p hp => (hsafe p (hpremem p hp) (hprene p hp)).1)]
  rw [hval, replaceAllChars_self _ (placeholderChars_ne_nil v)]
  rw [interpolateChars_eq_of_no_placeholder post s.data
    (fun p hp => (hsafe p (hpostmem p hp) (hpostne p hp)).2)]

/-- A `set` with `Global` scope preserves the all-Global invariant. -/
theorem allGlobal_set (store : VariableStore) (n : String) (v : VariableValue)
    (h : allGlobal store) : allGlobal (store.set n v VariableScope.Global) := by
  unfold VariableStore.set
  by_cases hc : store.entries.any (fun p => p.1 == n)
  · simp only [hc, if_true]
    intro p hp
    obtain ⟨q, hq, hpq⟩ := List.mem_map.mp hp
    by_cases hqn : q.1 == n
    · simp [hqn] at hpq
      simp [← hpq]
    · simp [hqn] at hpq
      exact hpq ▸ h q hq
  · simp only [hc, if_false]
    intro p hp
    rcases List.mem_append.mp hp with hl | hr
    · exact h p hl
    · simp at hr
      simp [hr]

/-- Every store built from engine writes alone is all-Global. -/
theorem allGlobal_applyEngineWrites (writes : List (String × VariableValue)) :
    ∀ store : VariableStore, allGlobal store → allGlobal (applyEngineWrites writes store) := by
  induction writes with
  | nil => intro store h; exact h
  | cons w rest ih =>
    intro store h
    exact ih _ (allGlobal_set store w.1 w.2 h)

/-- `clear_local` keeps an all-Global store unchanged. -/
theorem clearLocal_eq_of_allGlobal (store : VariableStore) (h : allGlobal store) :
    store.clearLocal = store := by
  unfold VariableStore.clearLocal
  have : store.entries.filter (fun p => p.2.scope == VariableScope.Global) = store.entries :=
    List.filter_eq_self.mpr (fun p hp => by simp [h p hp])
  rw [this]

/-- `wait_for_step` returns immediately when the status is not `Paused`. -/
theorem waitForStep_of_not_paused (script : List HostCmd) (rt : RuntimeState)
    (h : rt.status ≠ ExecutionStatus.Paused) :
    Runtime.waitForStep script rt = some (rt, script) := by
  unfold Runtime.waitForStep
  simp [h]

/-- Engine-level `wait_for_step` is the identity when the status is not
`Paused`. -/
theorem engine_waitForStep_of_not_paused (s : EngineState)
    (h : s.rt.status ≠ ExecutionStatus.Paused) : s.waitForStep = some s := by
  unfold EngineState.waitForStep
  rw [waitForStep_of_not_paused s.script s.rt h]

/-- Executing a `log` node with a dollar-free message from a running,
non-debug state appends exactly the node visit and its two Info logs. -/
theorem executeFromNode_logNode (env : ExtEnv) (g : Workflow) (fuel : Nat)
    (id msg : String)
    (hmsg : ∀ c ∈ msg.data, c ≠ '$')
    (hnext : g.findNextNodes id = [])
    (s : EngineState)
    (hst : s.rt.status = ExecutionStatus.Running)
    (hmode : s.rt.debug.mode = DebugMode.None) :
    executeFromNode env g (fuel + 1) (logNode id msg) s =
      (Outcome.ok,
        { s with
          rt := { s.rt with
            currentNodeId := some id
            logs := s.rt.logs ++
              [(LogEntry.info ("Executing node: " ++ id ++ " (log)")).withNode id,
               (LogEntry.info msg).withNode id] }
          visits := s.visits ++ [id] }) := by
  have hwait : s.waitForStep = some s :=
    engine_waitForStep_of_not_paused s (by rw [hst]; simp)
  simp only [executeFromNode, hst, hwait]
  simp [logNode, Runtime.shouldPauseAtNode, hmode, hst, dispatchNode, executeNode,
    executeLogNode, execSeq, hnext, WorkflowNode.dataStr, jsonLookup, Json.asStr,
    Runtime.setCurrentNode, Runtime.addLog, EngineState.addLogE,
    interpolate_eq_of_no_dollar _ _ hmsg]
  simp only [String.append_assoc]
  rw [show (" (" ++ ("log" ++ ")") : String) = " (log)" from rfl]

/-- Executing a `readFile` node under the failing driver from a running,
non-debug state appends the node visit and three logs, leaves the variable
store untouched, and returns the `ExecutionFailed` error. -/
theorem executeFromNode_readFile_fail (g : Workflow) (fuel : Nat) (id path : String)
    (hpath : ∀ c ∈ path.data, c ≠ '$')
    (s : EngineState)
    (hst : s.rt.status = ExecutionStatus.Running)
    (hmode : s.rt.debug.mode = DebugMode.None) :
    executeFromNode failingEnv g (fuel + 1) (readFileNode id path) s =
      (Outcome.err (EngineError.executionFailed "Failed to read file: boom"),
        { s with
          rt := { s.rt with
            currentNodeId := some id
            logs := s.rt.logs ++
              [(LogEntry.info ("Executing node: " ++ id ++ " (readFile)")).withNode id,
               (LogEntry.info ("Reading file: " ++ path)).withNode id,
               (LogEntry.error "Failed to read file: boom").withNode id] }
          visits := s.visits ++ [id] }) := by
  have hwait : s.waitForStep = some s :=
    engine_waitForStep_of_not_paused s (by rw [hst]; simp)
  simp only [executeFromNode, hst, hwait]
  simp [readFileNode, Runtime.shouldPauseAtNode, hmode, hst, dispatchNode, executeNode,
    executeReadFileNode, failingEnv, WorkflowNode.dataStr, jsonLookup, Json.asStr,
    Runtime.setCurrentNode, Runtime.addLog, EngineState.addLogE, EngineState.addLogNode,
    interpolate_eq_of_no_dollar _ _ hpath]
  simp only [String.append_assoc]
  rw [show (" (" ++ ("readFile" ++ ")") : String) = " (readFile)" from rfl]

@[simp] theorem setVariable_rt (s : EngineState) (n : String) (v : VariableValue) :
    (s.setVariable n v).rt = s.rt := rfl

@[simp] theorem setVariable_script (s : EngineState) (n : String) (v : VariableValue) :
    (s.setVariable n v).script = s.script := rfl

@[simp] theorem setVariable_visits (s : EngineState) (n : String) (v : VariableValue) :
    (s.setVariable n v).visits = s.visits := rfl

@[simp] theorem addLogE_rt_status (s : EngineState) (e : LogEntry) :
    (s.addLogE e).rt.status = s.rt.status := rfl

@[simp] theorem addLogE_rt_debug (s : EngineState) (e : LogEntry) :
    (s.addLogE e).rt.debug = s.rt.debug := rfl

@[simp] theorem addLogE_script (s : EngineState) (e : LogEntry) :
    (s.addLogE e).script = s.script := rfl

@[simp] theorem addLogE_vars (s : EngineState) (e : LogEntry) :
    (s.addLogE e).vars = s.vars := rfl

@[simp] theorem addLogE_visits (s : EngineState) (e : LogEntry) :
    (s.addLogE e).visits = s.visits := rfl

@[simp] theorem addLogNode_rt_status (s : EngineState) (m nid : String) :
    (s.addLogNode m nid).rt.status = s.rt.status := rfl

@[simp] theorem addLogNode_rt_debug (s : EngineState) (m nid : String) :
    (s.addLogNode m nid).rt.debug = s.rt.debug := rfl

@[simp] theorem addLogNode_script (s : EngineState) (m nid : String) :
    (s.addLogNode m nid).script = s.script := rfl

@[simp] theorem addLogNode_vars (s : EngineState) (m nid : String) :
    (s.addLogNode m nid).vars = s.vars := rfl

@[simp] theorem addLogNode_visits (s : EngineState) (m nid : String) :
    (s.addLogNode m nid).visits = s.visits := rfl

/-- Existential form of `executeFromNode_logNode`, exposing only the state
properties the loop inductions need. -/
theorem executeFromNode_logNode_spec (env : ExtEnv) (g : Workflow) (fuel : Nat)
    (id msg : String)
    (hmsg : ∀ c ∈ msg.data, c ≠ '$')
    (hnext : g.findNextNodes id = [])
    (s : EngineState)
    (hst : s.rt.status = ExecutionStatus.Running)
    (hmode : s.rt.debug.mode = DebugMode.None) :
    ∃ s3, executeFromNode env g (fuel + 1) (logNode id msg) s = (Outcome.ok, s3) ∧
      s3.visits = s.visits ++ [id] ∧ s3.rt.status = s.rt.status ∧
      s3.rt.debug = s.rt.debug ∧ s3.script = s.script ∧ s3.vars = s.vars := by
  rw [executeFromNode_logNode env g fuel id msg hmsg hnext s hst hmode]
  exact ⟨_, rfl, rfl, rfl, rfl, rfl, rfl⟩

/-- The while-loop body of `gWhile`: from any running, non-debug state, the
remaining iterations all run (the condition literal `"true"` interpolates to
itself against every store), each visiting the body node `"b"` exactly once,
and the loop then terminates with the running status intact. -/
theorem gWhile_loop_aux (remaining : Nat) :
    ∀ (iteration : Nat) (s : EngineState), s.rt.status = ExecutionStatus.Running →
      s.rt.debug.mode = DebugMode.None →
      ∃ s', loopWhileAux failingEnv gWhile 2 whileLoopNode "i" "true" remaining iteration s
          = (Outcome.ok, s') ∧
        s'.visits = s.visits ++ List.replicate remaining "b" ∧
        s'.rt.status = ExecutionStatus.Running ∧
        s'.rt.debug.mode = DebugMode.None ∧
        s'.script = s.script := by
  induction remaining with
  | zero =>
    intro iteration s h1 h2
    exact ⟨s, by simp [loopWhileAux], by simp, h1, h2, rfl⟩
  | succ remaining ih =>
    intro iteration s h1 h2
    have hcond : s.vars.interpolate "true" = "true" :=
      interpolate_eq_of_no_dollar _ _ (by decide)
    have heval : evaluateSimpleExpression "true" = true := by decide
    have hbody : gWhile.findNextNodesByHandle "L" "body" = [logNode "b" "tick"] := rfl
    have hnext : gWhile.findNextNodes "b" = [] := rfl
    set s2 := (s.setVariable "i" (VariableValue.num iteration)).addLogNode
      ("While loop iteration " ++ toString (iteration + 1)) "L" with hs2
    obtain ⟨s3, hrun3, hvis3, hst3, hdbg3, hscr3, hvars3⟩ :=
      executeFromNode_logNode_spec failingEnv gWhile 1 "b" "tick" (by decide) hnext s2
        (by simp [hs2, h1]) (by simp [hs2, h2])
    norm_num at hrun3
    obtain ⟨s', hrun, hvis, hst', hmode', hscript'⟩ :=
      ih (iteration + 1) s3 (by rw [hst3]; simp [hs2, h1])
        (by rw [hdbg3]; simp [hs2, h2])
    refine ⟨s', ?_, ?_, hst', hmode', ?_⟩
    · simp only [loopWhileAux, hcond, heval, if_true, whileLoopNode]
      rw [← hs2, hbody]
      simp only [execSeq, hrun3]
      exact hrun
    · rw [hvis, hvis3]
      simp [hs2, List.replicate_succ]
    · rw [hscript', hscr3]
      simp [hs2]

/-- Running the `loop` node routine of `gWhile` from any running, non-debug
state: the body runs its 10 000 capped iterations, then the done edge node
`"d"` runs. -/
theorem gWhile_loopNode_run (s : EngineState)
    (hst : s.rt.status = ExecutionStatus.Running)
    (hmode : s.rt.debug.mode = DebugMode.None) :
    ∃ s', executeLoopNode failingEnv gWhile 2 whileLoopNode s = (Outcome.ok, s') ∧
      s'.visits = s.visits ++ (List.replicate 10000 "b" ++ ["d"]) ∧
      s'.rt.status = ExecutionStatus.Running ∧
      s'.rt.debug.mode = DebugMode.None ∧
      s'.script = s.script := by
  have hdone : gWhile.findNextNodesByHandle "L" "done" = [logNode "d" "end"] := rfl
  have hnextd : gWhile.findNextNodes "d" = [] := rfl
  obtain ⟨s2, hloop, hvis2, hst2, hmode2, hscr2⟩ :=
    gWhile_loop_aux 10000 0 (s.addLogNode "Starting while loop: true" "L")
      (by simp [hst]) (by simp [hmode])
  obtain ⟨s3, hdrun, hvis3, hst3, hdbg3, hscr3, hvars3⟩ :=
    executeFromNode_logNode_spec failingEnv gWhile 1 "d" "end" (by decide) hnextd s2
      (by rw [hst2]) (by rw [hmode2])
  norm_num at hdrun
  refine ⟨s3, ?_, ?_, by rw [hst3, hst2], ?_, by rw [hscr3, hscr2]; simp⟩
  · have h1 : (whileLoopNode.dataStr "loopType").getD "count" = "while" := rfl
    have h2 : (whileLoopNode.dataStr "indexVariable").getD "index" = "i" := rfl
    have h3 : (whileLoopNode.dataStr "condition").getD "false" = "true" := rfl
    have hid : whileLoopNode.id = "L" := rfl
    simp only [executeLoopNode, h1, h2, h3, hid]
    rw [show ("Starting while loop: " ++ "true" : String) = "Starting while loop: true"
      from rfl]
    rw [hloop]
    simp only [hdone, execSeq, hdrun]
  · rw [hvis3, hvis2]
    simp only [addLogNode_visits, List.append_assoc]
  · rw [show s3.rt.debug.mode = s2.rt.debug.mode from by rw [hdbg3], hmode2]

/-- Visiting the `"L"` loop node of `gWhile` from a running, non-debug state:
adds the `"L"` visit, runs the 10 000 body iterations and the done node. -/
theorem gWhile_L_run (s : EngineState)
    (hst : s.rt.status = ExecutionStatus.Running)
    (hmode : s.rt.debug.mode = DebugMode.None) :
    ∃ s', executeFromNode failingEnv gWhile 3 whileLoopNode s = (Outcome.ok, s') ∧
      s'.visits = s.visits ++ ("L" :: (List.replicate 10000 "b" ++ ["d"])) ∧
      s'.rt.status = ExecutionStatus.Running ∧
      s'.rt.debug.mode = DebugMode.None ∧
      s'.script = s.script := by
  have hwait : s.waitForStep = some s :=
    engine_waitForStep_of_not_paused s (by rw [hst]; simp)
  set s2 : EngineState :=
    { s with
      rt := { s.rt with
        status := ExecutionStatus.Running
        currentNodeId := some "L"
        logs := s.rt.logs ++ [(LogEntry.info "Executing node: L (loop)").withNode "L"] }
      visits := s.visits ++ ["L"] } with hs2
  obtain ⟨s', hrun, hvis, hst', hmode', hscr'⟩ :=
    gWhile_loopNode_run s2 (by simp [hs2, hst]) (by simp [hs2, hmode])
  refine ⟨s', ?_, ?_, hst', hmode', by rw [hscr']⟩
  · simp only [executeFromNode, hst, hwait]
    simp [Runtime.shouldPauseAtNode, hmode, hst, dispatchNode, Runtime.setCurrentNode,
      Runtime.addLog, whileLoopNode, EngineState.addLogE]
    exact hrun
  · rw [hvis]
    simp only [hs2, List.append_assoc, List.singleton_append, List.cons_append,
      List.nil_append]

/-- Visiting the start node of `gWhile` from a running, non-debug state: the
whole chain (start visit, loop node, 10 000 body iterations, done node)
runs. -/
theorem gWhile_start_run (s : EngineState)
    (hst : s.rt.status = ExecutionStatus.Running)
    (hmode : s.rt.debug.mode = DebugMode.None) :
    ∃ s', executeFromNode failingEnv gWhile 4 startNode s = (Outcome.ok, s') ∧
      s'.visits = s.visits ++ ("s" :: "L" :: (List.replicate 10000 "b" ++ ["d"])) ∧
      s'.rt.status = ExecutionStatus.Running ∧
      s'.rt.debug.mode = DebugMode.None ∧
      s'.script = s.script := by
  have hwait : s.waitForStep = some s :=
    engine_waitForStep_of_not_paused s (by rw [hst]; simp)
  have hnexts : gWhile.findNextNodes "s" = [whileLoopNode] := rfl
  obtain ⟨s', hL, hvis, hst', hmode', hscr'⟩ :=
    gWhile_L_run
      ⟨{ workflowId := s.rt.workflowId, status := ExecutionStatus.Running,
         currentNodeId := some "s", startTimeSet := s.rt.startTimeSet,
         endTimeSet := s.rt.endTimeSet,
         logs := s.rt.logs ++ [(LogEntry.info "Executing node: s (start)").withNode "s"],
         error := s.rt.error, debug := s.rt.debug },
       s.vars, s.script, s.visits ++ ["s"]⟩
      rfl hmode
  refine ⟨s', ?_, ?_, hst', hmode', by rw [hscr']⟩
  · simp only [executeFromNode, hst, hwait]
    simp [Runtime.shouldPauseAtNode, hmode, hst, dispatchNode, executeNode,
      Runtime.setCurrentNode, Runtime.addLog, startNode, EngineState.addLogE,
      hnexts, execSeq]
    rw [hL]
  · rw [hvis]
    simp only [List.append_assoc, List.singleton_append, List.cons_append,
      List.nil_append]

/-- Running the whole `gWhile` workflow from a symbolic initial state. -/
theorem gWhile_workflow_run (s0 : EngineState)
    (hmode : s0.rt.debug.mode = DebugMode.None) :
    ∃ sFin, executeWorkflow failingEnv gWhile 4 s0 = (Outcome.ok, sFin) ∧
      sFin.visits = s0.visits ++ ("s" :: "L" :: (List.replicate 10000 "b" ++ ["d"])) ∧
      sFin.rt.status = ExecutionStatus.Completed := by
  have hstart : gWhile.findStartNode = some startNode := rfl
  obtain ⟨s', hrun, hvis, hst', hmode', hscr'⟩ :=
    gWhile_start_run { s0 with rt := Runtime.start s0.rt }
      (by simp [Runtime.start]) (by simp [Runtime.start, hmode])
  refine ⟨{ s' with rt := Runtime.complete s'.rt }, ?_, ?_, by simp [Runtime.complete]⟩
  · simp only [executeWorkflow, hstart]
    rw [hrun]
  · rw [show ({ s' with rt := Runtime.complete s'.rt } : EngineState).visits = s'.visits
      from rfl, hvis]

/-- C8: a `loop` node with `loopType` `"while"` whose interpolated condition
is truthy on every check (here the literal `"true"`, which no store entry can
rewrite) executes its body subgraph exactly 10 000 times — the safety cap of
`Executor::execute_loop_node` — and then terminates by following the `done`
edges: the run completes with the body node visited 10 000 times followed by
the done node. -/
theorem c8_while_loop_caps_at_10000 :
    ∃ sFin, executeWorkflow failingEnv gWhile 4 (EngineState.new "w8" []) =
        (Outcome.ok, sFin) ∧
      sFin.visits = "s" :: "L" :: (List.replicate 10000 "b" ++ ["d"]) ∧
      sFin.visits.count "b" = 10000 ∧
      sFin.rt.status = ExecutionStatus.Completed := by
  obtain ⟨sFin, hrun, hvis, hst⟩ := gWhile_workflow_run (EngineState.new "w8" []) rfl
  have hvis2 : sFin.visits = "s" :: "L" :: (List.replicate 10000 "b" ++ ["d"]) := by
    rw [hvis]
    rfl
  refine ⟨sFin, hrun, hvis2, ?_, hst⟩
  rw [hvis2]
  simp only [List.count_cons, List.count_append]
  rw [List.count_replicate_self]
  simp

/-- Existential form of `executeFromNode_readFile_fail`. -/
theorem executeFromNode_readFile_fail_spec (g : Workflow) (fuel : Nat) (id path : String)
    (hpath : ∀ c ∈ path.data, c ≠ '$')
    (s : EngineState)
    (hst : s.rt.status = ExecutionStatus.Running)
    (hmode : s.rt.debug.mode = DebugMode.None) :
    ∃ s2, executeFromNode failingEnv g (fuel + 1) (readFileNode id path) s =
        (Outcome.err (EngineError.executionFailed "Failed to read file: boom"), s2) ∧
      s2.visits = s.visits ++ [id] ∧ s2.rt.status = s.rt.status ∧
      s2.rt.debug = s.rt.debug ∧ s2.script = s.script ∧ s2.vars = s.vars := by
  rw [executeFromNode_readFile_fail g fuel id path hpath s hst hmode]
  exact ⟨_, rfl, rfl, rfl, rfl, rfl, rfl⟩

/-- The retry loop of the `gRetry` tryCatch block: every attempt re-executes
the failing try node once, and after the remaining attempts the loop reports
the last error string. -/
theorem gRetry_tryAttempts (N : Nat) (remaining : Nat) :
    ∀ (attempt : Nat) (acc : Option String) (s : EngineState),
      s.rt.status = ExecutionStatus.Running →
      s.rt.debug.mode = DebugMode.None →
      1 ≤ remaining →
      ∃ s', tryAttempts failingEnv (gRetry N) 3 (tryCatchNode N) [readFileNode "f" "/fail"]
          N remaining attempt acc s =
          Except.ok (some "Execution failed: Failed to read file: boom", s') ∧
        s'.visits = s.visits ++ List.replicate remaining "f" ∧
        s'.rt.status = ExecutionStatus.Running ∧
        s'.rt.debug.mode = DebugMode.None ∧
        s'.script = s.script ∧ s'.vars = s.vars := by
  induction remaining with
  | zero => intro _ _ _ _ _ h; exact absurd h (by simp)
  | succ remaining ih =>
    intro attempt acc s hst hmode _
    set s1 : EngineState :=
      if attempt > 0 then
        s.addLogNode
          ("Retry attempt " ++ toString attempt ++ "/" ++ toString N) "t"
      else s with hs1
    have h1st : s1.rt.status = ExecutionStatus.Running := by
      rw [hs1]; split <;> simp [hst]
    have h1mode : s1.rt.debug.mode = DebugMode.None := by
      rw [hs1]; split <;> simp [hmode]
    have h1scr : s1.script = s.script := by
      rw [hs1]; split <;> simp
    have h1vars : s1.vars = s.vars := by
      rw [hs1]; split <;> simp
    have h1vis : s1.visits = s.visits := by
      rw [hs1]; split <;> simp
    obtain ⟨s2, hfrun, hfvis, hfst, hfdbg, hfscr, hfvars⟩ :=
      executeFromNode_readFile_fail_spec (gRetry N) 2 "f" "/fail" (by decide) s1 h1st h1mode
    norm_num at hfrun
    have hid : (tryCatchNode N).id = "t" := rfl
    have hdbgmode : s2.rt.debug.mode = s1.rt.debug.mode := by rw [hfdbg]
    rcases Nat.eq_zero_or_pos remaining with hr | hr
    · subst hr
      refine ⟨s2, ?_, ?_, by rw [hfst, h1st], by rw [hdbgmode, h1mode],
        by rw [hfscr, h1scr], by rw [hfvars, h1vars]⟩
      · simp only [tryAttempts, hid, ← hs1, execSeq, hfrun]
        simp [tryAttempts, EngineError.toErrorString]
      · rw [hfvis, h1vis]
        simp
    · obtain ⟨s', htail, hvis', hst', hmode', hscr', hvars'⟩ :=
        ih (attempt + 1) (some "Execution failed: Failed to read file: boom") s2
          (by rw [hfst, h1st]) (by rw [hdbgmode, h1mode]) hr
      refine ⟨s', ?_, ?_, hst', hmode', by rw [hscr', hfscr, h1scr],
        by rw [hvars', hfvars, h1vars]⟩
      · simp only [tryAttempts, hid, ← hs1, execSeq, hfrun]
        simpa [EngineError.toErrorString] using htail
      · rw [hvis', hfvis, h1vis]
        simp [List.replicate_succ, List.append_assoc]

/-- Running the tryCatch routine of `gRetry N` from a running, non-debug
state: the failing try node runs `N + 1` times, then the catch node once,
then the finally node once. -/
theorem gRetry_tryCatch_run (N : Nat) (s : EngineState)
    (hst : s.rt.status = ExecutionStatus.Running)
    (hmode : s.rt.debug.mode = DebugMode.None) :
    ∃ s', executeTryCatchNode failingEnv (gRetry N) 3 (tryCatchNode N) s =
        (Outcome.ok, s') ∧
      s'.visits = s.visits ++ (List.replicate (N + 1) "f" ++ ["c", "l"]) ∧
      s'.rt.status = ExecutionStatus.Running ∧
      s'.rt.debug.mode = DebugMode.None ∧
      s'.script = s.script := by
  have herrv : ((tryCatchNode N).dataStr "errorVariable").getD "error" = "e" := rfl
  have hmr : ((tryCatchNode N).dataU64 "maxRetries").getD 0 = N := by
    simp [tryCatchNode, WorkflowNode.dataU64, jsonLookup, Json.asU64]
  have hid : (tryCatchNode N).id = "t" := rfl
  have htry : (gRetry N).findNextNodesByHandle "t" "try" = [readFileNode "f" "/fail"] := rfl
  have hcatch : (gRetry N).findNextNodesByHandle "t" "catch" = [logNode "c" "caught"] := rfl
  have hfin : (gRetry N).findNextNodesByHandle "t" "finally" = [logNode "l" "fin"] := rfl
  have hnextc : (gRetry N).findNextNodes "c" = [] := rfl
  have hnextl : (gRetry N).findNextNodes "l" = [] := rfl
  obtain ⟨s2, hA, hAvis, hAst, hAmode, hAscr, hAvars⟩ :=
    gRetry_tryAttempts N (N + 1) 0 none
      (s.addLogNode
        ("Starting try-catch block (max retries: " ++ toString N ++ ")") "t")
      (by simp [hst]) (by simp [hmode]) (by omega)
  set sC : EngineState :=
    (s2.setVariable "e" (VariableValue.str "Execution failed: Failed to read file: boom")).addLogE
      ((LogEntry.warn
          ("Caught error: " ++ "Execution failed: Failed to read file: boom")).withNode "t")
    with hsC
  have hsCst : sC.rt.status = ExecutionStatus.Running := by
    rw [hsC]; simp [hAst]
  have hsCmode : sC.rt.debug.mode = DebugMode.None := by
    rw [hsC]; simp [hAmode]
  obtain ⟨s3, hC, hCvis, hCst, hCdbg, hCscr, hCvars⟩ :=
    executeFromNode_logNode_spec failingEnv (gRetry N) 2 "c" "caught" (by decide) hnextc sC
      (by rw [hsCst]) (by rw [hsCmode])
  norm_num at hC
  have hs3st : s3.rt.status = ExecutionStatus.Running := by rw [hCst, hsCst]
  have hs3mode : s3.rt.debug.mode = DebugMode.None := by rw [hCdbg]; exact hsCmode
  obtain ⟨s4, hF, hFvis, hFst, hFdbg, hFscr, hFvars⟩ :=
    executeFromNode_logNode_spec failingEnv (gRetry N) 2 "l" "fin" (by decide) hnextl s3
      (by rw [hs3st]) (by rw [hs3mode])
  norm_num at hF
  refine ⟨s4, ?_, ?_, by rw [hFst, hs3st], by rw [hFdbg]; exact hs3mode, ?_⟩
  · simp only [executeTryCatchNode, herrv, hmr, hid, htry, hA]
    rw [← hsC, hcatch]
    simp only [execSeq, hC]
    rw [hfin]
    simp only [execSeq, hF]
  · rw [hFvis, hCvis]
    simp only [hsC, addLogE_visits, setVariable_visits]
    rw [hAvis]
    simp only [addLogNode_visits, List.append_assoc, List.cons_append,
      List.singleton_append, List.nil_append]
  · rw [hFscr, hCscr]
    simp only [hsC, addLogE_script, setVariable_script]
    rw [hAscr]
    simp only [addLogNode_script]

/-- Visiting the `"t"` tryCatch node of `gRetry N` from a running, non-debug
state. -/
theorem gRetry_t_run (N : Nat) (s : EngineState)
    (hst : s.rt.status = ExecutionStatus.Running)
    (hmode : s.rt.debug.mode = DebugMode.None) :
    ∃ s', executeFromNode failingEnv (gRetry N) 4 (tryCatchNode N) s = (Outcome.ok, s') ∧
      s'.visits = s.visits ++ ("t" :: (List.replicate (N + 1) "f" ++ ["c", "l"])) ∧
      s'.rt.status = ExecutionStatus.Running ∧
      s'.rt.debug.mode = DebugMode.None ∧
      s'.script = s.script := by
  have hwait : s.waitForStep = some s :=
    engine_waitForStep_of_not_paused s (by rw [hst]; simp)
  obtain ⟨s', hrun, hvis, hst', hmode', hscr'⟩ :=
    gRetry_tryCatch_run N
      ⟨{ workflowId := s.rt.workflowId, status := ExecutionStatus.Running,
         currentNodeId := some "t", startTimeSet := s.rt.startTimeSet,
         endTimeSet := s.rt.endTimeSet,
         logs := s.rt.logs ++
           [(LogEntry.info "Executing node: t (tryCatch)").withNode "t"],
         error := s.rt.error, debug := s.rt.debug },
       s.vars, s.script, s.visits ++ ["t"]⟩
      rfl hmode
  refine ⟨s', ?_, ?_, hst', hmode', by rw [hscr']⟩
  · simp only [executeFromNode, hst, hwait]
    simp [Runtime.shouldPauseAtNode, hmode, hst, dispatchNode, Runtime.setCurrentNode,
      Runtime.addLog, tryCatchNode, EngineState.addLogE]
    exact hrun
  · rw [hvis]
    simp only [List.append_assoc, List.singleton_append, List.cons_append,
      List.nil_append]

/-- Visiting the start node of `gRetry N` from a running, non-debug state:
the whole chain (start visit, tryCatch with retries, catch, finally) runs. -/
theorem gRetry_start_run (N : Nat) (s : EngineState)
    (hst : s.rt.status = ExecutionStatus.Running)
    (hmode : s.rt.debug.mode = DebugMode.None) :
    ∃ s', executeFromNode failingEnv (gRetry N) 5 startNode s = (Outcome.ok, s') ∧
      s'.visits = s.visits ++
        ("s" :: "t" :: (List.replicate (N + 1) "f" ++ ["c", "l"])) ∧
      s'.rt.status = ExecutionStatus.Running ∧
      s'.rt.debug.mode = DebugMode.None ∧
      s'.script = s.script := by
  have hwait : s.waitForStep = some s :=
    engine_waitForStep_of_not_paused s (by rw [hst]; simp)
  have hnexts : (gRetry N).findNextNodes "s" = [tryCatchNode N] := rfl
  obtain ⟨s', hT, hvis, hst', hmode', hscr'⟩ :=
    gRetry_t_run N
      ⟨{ workflowId := s.rt.workflowId, status := ExecutionStatus.Running,
         currentNodeId := some "s", startTimeSet := s.rt.startTimeSet,
         endTimeSet := s.rt.endTimeSet,
         logs := s.rt.logs ++ [(LogEntry.info "Executing node: s (start)").withNode "s"],
         error := s.rt.error, debug := s.rt.debug },
       s.vars, s.script, s.visits ++ ["s"]⟩
      rfl hmode
  refine ⟨s', ?_, ?_, hst', hmode', by rw [hscr']⟩
  · simp only [executeFromNode, hst, hwait]
    simp [Runtime.shouldPauseAtNode, hmode, hst, dispatchNode, executeNode,
      Runtime.setCurrentNode, Runtime.addLog, startNode, EngineState.addLogE,
      hnexts, execSeq]
    rw [hT]
  · rw [hvis]
    simp only [List.append_assoc, List.singleton_append, List.cons_append,
      List.nil_append]

/-- Running the whole `gRetry N` workflow from a symbolic initial state. -/
theorem gRetry_workflow_run (N : Nat) (s0 : EngineState)
    (hmode : s0.rt.debug.mode = DebugMode.None) :
    ∃ sFin, executeWorkflow failingEnv (gRetry N) 5 s0 = (Outcome.ok, sFin) ∧
      sFin.visits = s0.visits ++
        ("s" :: "t" :: (List.replicate (N + 1) "f" ++ ["c", "l"])) ∧
      sFin.rt.status = ExecutionStatus.Completed := by
  have hstart : (gRetry N).findStartNode = some startNode := rfl
  obtain ⟨s', hrun, hvis, hst', hmode', hscr'⟩ :=
    gRetry_start_run N { s0 with rt := Runtime.start s0.rt }
      (by simp [Runtime.start]) (by simp [Runtime.start, hmode])
  refine ⟨{ s' with rt := Runtime.complete s'.rt }, ?_, ?_, by simp [Runtime.complete]⟩
  · simp only [executeWorkflow, hstart]
    rw [hrun]
  · rw [show ({ s' with rt := Runtime.complete s'.rt } : EngineState).visits = s'.visits
      from rfl, hvis]

/-- C4: a `tryCatch` node with `maxRetries = N` whose try subgraph errors on
every attempt executes the try subgraph exactly `N + 1` times, the catch
edges exactly once, and the finally edges exactly once (counted over the node
visits of the run, which completes successfully). -/
theorem c4_retry_count (N : Nat) :
    ∃ sFin, executeWorkflow failingEnv (gRetry N) 5 (EngineState.new "w4" []) =
        (Outcome.ok, sFin) ∧
      sFin.visits.count "f" = N + 1 ∧
      sFin.visits.count "c" = 1 ∧
      sFin.visits.count "l" = 1 ∧
      sFin.rt.status = ExecutionStatus.Completed := by
  obtain ⟨sFin, hrun, hvis, hst⟩ := gRetry_workflow_run N (EngineState.new "w4" []) rfl
  have hvis2 : sFin.visits = "s" :: "t" :: (List.replicate (N + 1) "f" ++ ["c", "l"]) := by
    rw [hvis]
    rfl
  refine ⟨sFin, hrun, ?_, ?_, ?_, hst⟩ <;> rw [hvis2] <;>
    simp [List.count_cons, List.count_append, List.count_replicate]

/-- C10: every variable written during workflow execution is stored with the
`Global` scope tag — `Runtime::set_variable`, the single write path used by
node handlers and the plugin host context, hard-codes `VariableScope::Global`
— and consequently `clear_local` leaves every store produced by engine
writes alone unchanged. -/
theorem c10_engine_writes_global_clear_local_identity :
    (∀ writes : List (String × VariableValue),
      allGlobal (applyEngineWrites writes VariableStore.new) ∧
      (applyEngineWrites writes VariableStore.new).clearLocal =
        applyEngineWrites writes VariableStore.new) ∧
    ∀ (s : EngineState) (n : String) (v : VariableValue),
      (s.setVariable n v).vars = s.vars.set n v VariableScope.Global := by
  constructor
  · intro writes
    have hg := allGlobal_applyEngineWrites writes VariableStore.new
      (by intro p hp; simp [VariableStore.new] at hp)
    exact ⟨hg, clearLocal_eq_of_allGlobal _ hg⟩
  · intro s n v
    rfl

/-- C3 counterexample: the runtime coordinator operations are not guarded by
terminal status — `pause()` applied to a `Completed` runtime sets the status
back to the non-terminal `Paused`. -/
theorem c3_counterexample_pause_escapes_completed :
    (Runtime.complete (Runtime.start (RuntimeState.new "w"))).status
        = ExecutionStatus.Completed ∧
    (Runtime.pause (Runtime.complete (Runtime.start (RuntimeState.new "w")))).status
        = ExecutionStatus.Paused :=
  ⟨rfl, rfl⟩

/-- C3 (amended): among the runtime-coordinator operations only `step()` is
guarded by the status (it requires `Paused`, so it leaves a terminal state
entirely unchanged), and `complete()`/`fail()` map terminal states to
terminal states; but `pause()`, `resume()` and `start()` overwrite the status
unconditionally (to `Paused`/`Running`/`Running`), so terminal states are not
absorbing. -/
theorem c3_terminal_guard_only_on_step (s : RuntimeState) (e : String)
    (h : s.status = ExecutionStatus.Completed ∨ s.status = ExecutionStatus.Failed) :
    Runtime.step s = s ∧
    (Runtime.complete s).status = ExecutionStatus.Completed ∧
    (Runtime.fail e s).status = ExecutionStatus.Failed ∧
    (Runtime.pause s).status = ExecutionStatus.Paused ∧
    (Runtime.resume s).status = ExecutionStatus.Running ∧
    (Runtime.start s).status = ExecutionStatus.Running := by
  refine ⟨?_, rfl, rfl, rfl, rfl, rfl⟩
  unfold Runtime.step
  rcases h with h | h <;> simp [h]

/-- Witness for `c3_terminal_guard_only_on_step` at the completed runtime of
the counterexample. -/
theorem c3_terminal_guard_only_on_step_witness :
    ((Runtime.complete (RuntimeState.new "w")).status = ExecutionStatus.Completed ∨
      (Runtime.complete (RuntimeState.new "w")).status = ExecutionStatus.Failed) ∧
    (Runtime.step (Runtime.complete (RuntimeState.new "w")) =
        Runtime.complete (RuntimeState.new "w") ∧
      (Runtime.complete (Runtime.complete (RuntimeState.new "w"))).status =
        ExecutionStatus.Completed ∧
      (Runtime.fail "e" (Runtime.complete (RuntimeState.new "w"))).status =
        ExecutionStatus.Failed ∧
      (Runtime.pause (Runtime.complete (RuntimeState.new "w"))).status =
        ExecutionStatus.Paused ∧
      (Runtime.resume (Runtime.complete (RuntimeState.new "w"))).status =
        ExecutionStatus.Running ∧
      (Runtime.start (Runtime.complete (RuntimeState.new "w"))).status =
        ExecutionStatus.Running) :=
  ⟨Or.inl rfl, c3_terminal_guard_only_on_step (Runtime.complete (RuntimeState.new "w"))
    "e" (Or.inl rfl)⟩

/-- C9: when the workflow has no `start` node, `execute()` returns the
`InvalidWorkflow` error but has already mutated the fresh runtime:
`Runtime::start` ran first, so the status is `Running`, the start time is
set and the started log is appended, while `fail` is never invoked on this
path so no error string is recorded. -/
theorem c9_missing_start_leaves_runtime_running (env : ExtEnv) (g : Workflow)
    (fuel : Nat) (wid : String) (script : List HostCmd)
    (h : g.findStartNode = none) :
    executeWorkflow env g fuel (EngineState.new wid script) =
      (Outcome.err (EngineError.invalidWorkflow "No start node found"),
        ⟨Runtime.start (RuntimeState.new wid), VariableStore.new, script, []⟩) ∧
    (Runtime.start (RuntimeState.new wid)).status = ExecutionStatus.Running ∧
    (Runtime.start (RuntimeState.new wid)).error = none ∧
    (Runtime.start (RuntimeState.new wid)).startTimeSet = true ∧
    (Runtime.start (RuntimeState.new wid)).logs =
      [LogEntry.info "Workflow execution started"] := by
  refine ⟨?_, rfl, rfl, rfl, rfl⟩
  simp only [executeWorkflow, h, EngineState.new]

/-- Witness for `c9_missing_start_leaves_runtime_running` on the start-less
workflow `gNoStart`. -/
theorem c9_missing_start_witness :
    gNoStart.findStartNode = none ∧
    (executeWorkflow failingEnv gNoStart 10 (EngineState.new "w9" []) =
      (Outcome.err (EngineError.invalidWorkflow "No start node found"),
        ⟨Runtime.start (RuntimeState.new "w9"), VariableStore.new, [], []⟩) ∧
    (Runtime.start (RuntimeState.new "w9")).status = ExecutionStatus.Running ∧
    (Runtime.start (RuntimeState.new "w9")).error = none ∧
    (Runtime.start (RuntimeState.new "w9")).startTimeSet = true ∧
    (Runtime.start (RuntimeState.new "w9")).logs =
      [LogEntry.info "Workflow execution started"]) :=
  ⟨rfl, c9_missing_start_leaves_runtime_running failingEnv gNoStart 10 "w9" [] rfl⟩

/-- C5 counterexample: in the store holding `a = "$\x7bb\x7d"` and `b = "x"`
(in an iteration order the `HashMap` may produce), interpolating the single
token for `a` yields `"x"`, not the display string of `a`: the value
substituted for `a` is re-scanned by the later pass over `b`, i.e. recursive
expansion does occur. -/
theorem c5_counterexample_recursive_expansion :
    rescanStore.get "a" = some (VariableValue.str "$\x7bb\x7d") ∧
    (VariableValue.str "$\x7bb\x7d").toStringValue = "$\x7bb\x7d" ∧
    rescanStore.interpolate "$\x7ba\x7d" = "x" ∧
    ("x" : String) ≠ "$\x7bb\x7d" :=
  ⟨rfl, rfl, rfl, by decide⟩

/-- Witness for `interpolate_single_token_exact` on the one-entry store
`x = "hello"`. -/
theorem interpolate_single_token_exact_witness :
    (let store := VariableStore.new.set "x" (VariableValue.str "hello")
        VariableScope.Global
     (("x", (⟨"x", VariableValue.str "hello", VariableScope.Global⟩ : Variable)) ∈
        store.entries) ∧
     (store.entries.map Prod.fst).Nodup ∧
     (Variable.mk "x" (VariableValue.str "hello") VariableScope.Global).value.toStringValue
        = "hello" ∧
     (∀ p ∈ store.entries, p.1 ≠ "x" →
       ¬ placeholderChars p.1 <:+: placeholderChars "x" ∧
       ¬ placeholderChars p.1 <:+: ("hello" : String).data)) ∧
    (VariableStore.new.set "x" (VariableValue.str "hello")
        VariableScope.Global).interpolate ("$\x7b" ++ "x" ++ "\x7d") = "hello" := by
  refine ⟨⟨?_, ?_, rfl, ?_⟩, ?_⟩
  · exact List.mem_singleton.mpr rfl
  · simp [VariableStore.set, VariableStore.new]
  · intro p hp hne
    rcases List.mem_singleton.mp hp with rfl
    exact absurd rfl hne
  · exact interpolate_single_token_exact _ "x"
      ⟨"x", VariableValue.str "hello", VariableScope.Global⟩ "hello"
      (List.mem_singleton.mpr rfl)
      (by simp [VariableStore.set, VariableStore.new])
      rfl
      (fun p hp hne => absurd (by rcases List.mem_singleton.mp hp with rfl; rfl) hne)

/-- C7 (amended): the derived serde impls of `WorkflowEdge` round-trip edge
values under the struct's own field names `source_handle`/`target_handle`
(absent handles serialize as explicit nulls); documents carrying the
documented camelCase `sourceHandle`/`targetHandle` names do not round-trip —
such fields are ignored on input and dropped (see the counterexample). -/
theorem c7_edge_value_round_trip (e : WorkflowEdge) :
    WorkflowEdge.fromJson (WorkflowEdge.toJson e) = some e := by
  obtain ⟨id, src, tgt, sh, th⟩ := e
  cases sh <;> cases th <;>
    simp [WorkflowEdge.toJson, WorkflowEdge.fromJson, jsonFieldStr, jsonFieldOptStr,
      jsonLookup, optStrToJson, Json.asStr]

/-- C7 counterexample: the edge document using the documented camelCase
`sourceHandle` field deserializes with the handle dropped (the unknown field
is ignored and `source_handle` defaults to `None`), and re-serializing yields
a snake-case document with null handles that differs from the input — so
`serialize(deserialize(G))` is not `G` modulo whitespace for such documents. -/
theorem c7_counterexample_camel_case_handles_dropped :
    WorkflowEdge.fromJson jEdgeCamel = some ⟨"e1", "a", "b", none, none⟩ ∧
    WorkflowEdge.toJson ⟨"e1", "a", "b", none, none⟩ =
      Json.obj
        [("id", Json.str "e1"), ("source", Json.str "a"), ("target", Json.str "b"),
         ("source_handle", Json.null), ("target_handle", Json.null)] ∧
    jsonLookup
      [("id", Json.str "e1"), ("source", Json.str "a"), ("target", Json.str "b"),
       ("source_handle", Json.null), ("target_handle", Json.null)] "sourceHandle" = none ∧
    WorkflowEdge.toJson ⟨"e1", "a", "b", none, none⟩ ≠ jEdgeCamel := by
  refine ⟨rfl, rfl, rfl, ?_⟩
  intro h
  simp [WorkflowEdge.toJson, jEdgeCamel] at h

/-- C6 (amended): for every node whose type string is outside the built-in
set, `Executor::execute_node` unconditionally appends the Info log
`"Unknown node type: …"` and returns `Ok(())` (the node is skipped and the
workflow does not fail); the `Executor` holds no reference to the Plugin
Registry, so no delegation to it takes place during execution. -/
theorem c6_unknown_type_always_logged_and_skipped (env : ExtEnv) (node : WorkflowNode)
    (s : EngineState) (h : node.node_type ∉ builtinNodeTypes) :
    executeNode env node s =
      (Outcome.ok, s.addLogE
        ((LogEntry.info ("Unknown node type: " ++ node.node_type)).withNode node.id)) := by
  simp only [builtinNodeTypes, unmodelledTypes, List.mem_append, List.mem_cons,
    List.not_mem_nil, or_false, not_or] at h
  rw [executeNode.eq_def]
  split
  · exact absurd h.1 (by simp_all)
  · exact absurd h.2.1 (by simp_all)
  · exact absurd h.2.2.1 (by simp_all)
  · exact absurd h.2.2.2.1 (by simp_all)
  · exact absurd h.2.2.2.2.1 (by simp_all)
  · exact absurd h.2.2.2.2.2.1 (by simp_all)
  · exact absurd h.2.2.2.2.2.2.1 (by simp_all)
  · exact absurd h.2.2.2.2.2.2.2.1 (by simp_all)
  · rename_i t
    have hcont : unmodelledTypes.contains node.node_type = false := by
      simp [unmodelledTypes]
      tauto
    rw [hcont]
    simp

/-- C6 counterexample: take a plugin that has registered the node type
`"myPlugin"`.  The spec-modelled dispatcher (`specUnknownTypeDispatch`) then
requires the node to be delegated to the Plugin Registry, but the executor's
dispatch logs the Info entry `"Unknown node type: myPlugin"` and skips the
node regardless, and the workflow completes: no delegation happens for a
registered type. -/
theorem c6_counterexample_registered_type_not_delegated :
    specUnknownTypeDispatch ["myPlugin"] "myPlugin" =
      UnknownTypeDispatch.delegatedToPlugin "myPlugin" ∧
    executeNode failingEnv myPluginNode (EngineState.new "w6" []) =
      (Outcome.ok, (EngineState.new "w6" []).addLogE
        ((LogEntry.info "Unknown node type: myPlugin").withNode "p1")) ∧
    (executeWorkflow failingEnv gUnknownType 10 (EngineState.new "w6" [])).1 =
      Outcome.ok ∧
    (executeWorkflow failingEnv gUnknownType 10 (EngineState.new "w6" [])).2.rt.status =
      ExecutionStatus.Completed ∧
    (LogEntry.info "Unknown node type: myPlugin").withNode "p1" ∈
      (executeWorkflow failingEnv gUnknownType 10 (EngineState.new "w6" [])).2.rt.logs := by
  refine ⟨rfl, rfl, ?_, ?_, ?_⟩ <;>
    simp [executeWorkflow, EngineState.new, RuntimeState.new, Runtime.start,
      DebugState.default, VariableStore.new, Workflow.findStartNode, gUnknownType,
      startNode, myPluginNode, plainEdge, executeFromNode, EngineState.waitForStep,
      Runtime.waitForStep, Runtime.shouldPauseAtNode, dispatchNode, executeNode,
      execSeq, Workflow.findNextNodes, Workflow.findNode, Runtime.setCurrentNode,
      Runtime.addLog, Runtime.complete, EngineState.addLogE, unmodelledTypes,
      LogEntry.info, LogEntry.withNode]

/-- Witness for `c6_unknown_type_always_logged_and_skipped` at node type
`"customType"`. -/
theorem c6_unknown_type_witness :
    (("customType" : String) ∉ builtinNodeTypes) ∧
    executeNode failingEnv ⟨"n1", "customType", [], none⟩ (EngineState.new "w" []) =
      (Outcome.ok, (EngineState.new "w" []).addLogE
        ((LogEntry.info ("Unknown node type: " ++ "customType")).withNode "n1")) :=
  ⟨by decide, c6_unknown_type_always_logged_and_skipped failingEnv
    ⟨"n1", "customType", [], none⟩ (EngineState.new "w" []) (by decide)⟩

/-- The step-debug scenario on `gChain`: `execute_debug(StepByStep)` starts
the run (`Runtime::start_debug` sets the step latch), the host calls
`resume()` once immediately after (every coordinator call inside the executor
is an await point, so this interleaving is realisable; `resume` clears the
latch and keeps the status `Running`), and from then on the scripted host
commands are consumed only while the executor polls inside `wait_for_step`.
The remainder mirrors `Executor::execute_debug` (traversal from the start
node, then `complete`/`fail`). -/
def debugChainRun (script : List HostCmd) : Outcome × EngineState :=
  let rt0 := Runtime.resume (Runtime.startDebug DebugMode.StepByStep (RuntimeState.new "w2"))
  let s0 : EngineState := ⟨rt0, VariableStore.new, script, []⟩
  match gChain.findStartNode with
  | none => (Outcome.err (EngineError.invalidWorkflow "No start node found"), s0)
  | some startNode =>
    match executeFromNode failingEnv gChain 10 startNode s0 with
    | (Outcome.ok, s) => (Outcome.ok, { s with rt := Runtime.complete s.rt })
    | (Outcome.err e, s) =>
      (Outcome.err e, { s with rt := Runtime.fail e.toErrorString s.rt })
    | other => other

/-- C2 (code behavior at the claim's failing input): in `StepByStep` mode on
the chain `start → a → b`, the executor first blocks paused at the start node
(after the host's initial `resume`), and then a single `step()` command
releases not one node but the entire remaining run: the start handler and
both `a` and `b` execute, the run completes, and the executor never blocks
again — `wait_for_step` and `pause_at_node` never clear `debug.step_pending`,
so one step lets every subsequent node through. -/
theorem c2_single_step_releases_entire_run :
    (∃ sB, debugChainRun [] = (Outcome.blocked, sB) ∧
      sB.visits = ["s"] ∧
      sB.rt.status = ExecutionStatus.Paused ∧
      sB.rt.debug.pausedAtNode = some "s") ∧
    (∃ sFin, debugChainRun [HostCmd.step] = (Outcome.ok, sFin) ∧
      sFin.visits = ["s", "a", "b"] ∧
      sFin.script = [] ∧
      sFin.rt.status = ExecutionStatus.Completed) := by
  constructor
  · refine ⟨(debugChainRun []).2, ?_, ?_, ?_, ?_⟩ <;>
      simp [debugChainRun, RuntimeState.new, Runtime.startDebug, Runtime.resume,
        DebugState.default, VariableStore.new, Workflow.findStartNode, gChain,
        startNode, logNode, plainEdge, executeFromNode, EngineState.waitForStep,
        Runtime.waitForStep, Runtime.shouldPauseAtNode, Runtime.pauseAtNode,
        dispatchNode, executeNode, executeLogNode, execSeq, Workflow.findNextNodes,
        Workflow.findNode, Runtime.setCurrentNode, Runtime.addLog, Runtime.complete,
        EngineState.addLogE, WorkflowNode.dataStr, jsonLookup, Json.asStr,
        VariableStore.interpolate, interpolateChars, applyHostCmd, Runtime.step]
  · refine ⟨(debugChainRun [HostCmd.step]).2, ?_, ?_, ?_, ?_⟩ <;>
      simp [debugChainRun, RuntimeState.new, Runtime.startDebug, Runtime.resume,
        DebugState.default, VariableStore.new, Workflow.findStartNode, gChain,
        startNode, logNode, plainEdge, executeFromNode, EngineState.waitForStep,
        Runtime.waitForStep, Runtime.shouldPauseAtNode, Runtime.pauseAtNode,
        dispatchNode, executeNode, executeLogNode, execSeq, Workflow.findNextNodes,
        Workflow.findNode, Runtime.setCurrentNode, Runtime.addLog, Runtime.complete,
        EngineState.addLogE, WorkflowNode.dataStr, jsonLookup, Json.asStr,
        VariableStore.interpolate, interpolateChars, applyHostCmd, Runtime.step]

/-- C1 counterexample: in `gCatchFails` (try node fails, catch node itself
fails, finally node `"l"` present), the catch-branch error propagates out of
`execute_try_catch_node` through the `?` operator before the finally edges
are reached: the run ends with the catch error, the runtime fails, and the
finally node is never visited — the finally edges do not always run last. -/
theorem c1_counterexample_finally_skipped_when_catch_errors :
    (executeWorkflow failingEnv gCatchFails 10 (EngineState.new "w1" [])).1 =
      Outcome.err (EngineError.executionFailed "Failed to read file: boom") ∧
    (executeWorkflow failingEnv gCatchFails 10 (EngineState.new "w1" [])).2.visits =
      ["s", "t", "f", "c"] ∧
    "l" ∉ (executeWorkflow failingEnv gCatchFails 10 (EngineState.new "w1" [])).2.visits ∧
    (executeWorkflow failingEnv gCatchFails 10 (EngineState.new "w1" [])).2.rt.status =
      ExecutionStatus.Failed := by
  refine ⟨?_, ?_, ?_, ?_⟩ <;>
    simp [executeWorkflow, EngineState.new, RuntimeState.new, Runtime.start,
      DebugState.default, VariableStore.new, Workflow.findStartNode, gCatchFails,
      startNode, tryCatchNode, readFileNode, logNode, plainEdge, handleEdge,
      executeFromNode, EngineState.waitForStep, Runtime.waitForStep,
      Runtime.shouldPauseAtNode, dispatchNode, executeNode, executeReadFileNode,
      executeLogNode, executeTryCatchNode, tryAttempts, execSeq,
      Workflow.findNextNodes, Workflow.findNode, Workflow.findNextNodesByHandle,
      Runtime.setCurrentNode, Runtime.addLog, Runtime.complete, Runtime.fail,
      EngineState.addLogE, EngineState.addLogNode, EngineState.setVariable,
      WorkflowNode.dataStr, WorkflowNode.dataU64, jsonLookup, Json.asStr, Json.asU64,
      VariableStore.interpolate, interpolateChars, VariableStore.set, failingEnv,
      EngineError.toErrorString]

/-- C1 (amended): the finally edges run last when the try subgraph
ultimately succeeds (catch is skipped), and after the catch edges when every
catch node completes without error; but when a node in the catch branch
itself errors, that error becomes the block's outcome immediately and the
finally edges are not executed.  Witnessed on the three scenario runs:
`gCatchFails` under the succeeding driver (finally `"l"` is the last visit),
`gRetry 0` under the failing driver (catch `"c"` then finally `"l"` last),
and `gCatchFails` under the failing driver (catch node errors: the run ends
with that error and `"l"` is never visited). -/
theorem c1_finally_last_unless_catch_errors :
    ((executeWorkflow okEnv gCatchFails 10 (EngineState.new "w1" [])).1 = Outcome.ok ∧
     (executeWorkflow okEnv gCatchFails 10 (EngineState.new "w1" [])).2.visits =
       ["s", "t", "f", "l"]) ∧
    (∃ sFin, executeWorkflow failingEnv (gRetry 0) 5 (EngineState.new "w4" []) =
        (Outcome.ok, sFin) ∧
      sFin.visits = ["s", "t", "f", "c", "l"]) ∧
    ((executeWorkflow failingEnv gCatchFails 10 (EngineState.new "w1" [])).1 =
        Outcome.err (EngineError.executionFailed "Failed to read file: boom") ∧
     "l" ∉ (executeWorkflow failingEnv gCatchFails 10 (EngineState.new "w1" [])).2.visits) := by
  refine ⟨⟨?_, ?_⟩, ?_, ?_, ?_⟩
  case refine_3 =>
    obtain ⟨sFin, hrun, hvis, hst⟩ := gRetry_workflow_run 0 (EngineState.new "w4" []) rfl
    refine ⟨sFin, hrun, ?_⟩
    rw [hvis]
    rfl
  all_goals
    simp [executeWorkflow, EngineState.new, RuntimeState.new, Runtime.start,
      DebugState.default, VariableStore.new, Workflow.findStartNode, gCatchFails,
      startNode, tryCatchNode, readFileNode, logNode, plainEdge, handleEdge,
      executeFromNode, EngineState.waitForStep, Runtime.waitForStep,
      Runtime.shouldPauseAtNode, dispatchNode, executeNode, executeReadFileNode,
      executeLogNode, executeTryCatchNode, tryAttempts, execSeq,
      Workflow.findNextNodes, Workflow.findNode, Workflow.findNextNodesByHandle,
      Runtime.setCurrentNode, Runtime.addLog, Runtime.complete, Runtime.fail,
      EngineState.addLogE, EngineState.addLogNode, EngineState.setVariable,
      WorkflowNode.dataStr, WorkflowNode.dataU64, jsonLookup, Json.asStr, Json.asU64,
      VariableStore.interpolate, interpolateChars, VariableStore.set, failingEnv,
      okEnv, EngineError.toErrorString]
